import Mathlib

/-!
Verification of the py-horizon sky-color core.

This file gives a shallow embedding of the core computation pipeline of the
py-horizon repository and proves properties of it:

* `src/horizon/l1_entities/colors.py`            — `Color`, `clamp`, `lerp`, `desaturate`
* `src/horizon/l1_entities/color_effects.py`     — the five compositor stages
* `src/horizon/l1_entities/heuristics.py`        — SHA-256 seeded heuristics
* `src/horizon/l2_use_cases/compute_sky_use_case.py` — effect pipeline, AQI
* `src/horizon/l1_entities/atmospheric_scattering.py` — gradient stops, transmittance
* `src/horizon/l1_entities/geo/sun.py`           — solar position

Python floats are modelled as elements of a linear ordered field (instantiated
at `ℚ` for executable checks and at `ℝ` for the analytic ephemeris); Python's
float `%` is `x - ⌊x/m⌋*m` and `round` is round-half-to-even, both modelled
explicitly.  Transcendental library calls (`math.exp`, `math.sqrt`, …) are
modelled by `Real.exp`, `Real.sqrt`, … where the proofs are analytic, and are
taken as explicit function parameters where only algebraic structure matters.
-/

namespace Horizon

/-- Colors: triple of channels, `colors.py` line 8. -/
structure Color (K : Type) where
  r : K
  g : K
  b : K
deriving DecidableEq, Repr

section ColorOps

variable {K : Type} [LinearOrderedField K]

/-- `Color.clamp`, `colors.py` line 14: clamp every channel to `[0,1]`. -/
def Color.clamp (c : Color K) : Color K :=
  ⟨max 0 (min 1 c.r), max 0 (min 1 c.g), max 0 (min 1 c.b)⟩

/-- `Color.lerp`, `colors.py` line 17. -/
def Color.lerp (c o : Color K) (t : K) : Color K :=
  ⟨c.r + (o.r - c.r) * t, c.g + (o.g - c.g) * t, c.b + (o.b - c.b) * t⟩

/-- Relative luminance `0.2126 r + 0.7152 g + 0.0722 b` (used throughout
`color_effects.py`). -/
def Color.luminance (c : Color K) : K :=
  (2126 / 10000 : K) * c.r + (7152 / 10000 : K) * c.g + (722 / 10000 : K) * c.b

/-- `Color.desaturate`, `colors.py` line 24. -/
def Color.desaturate (c : Color K) (factor : K) : Color K :=
  let lum := c.luminance
  ⟨c.r + (lum - c.r) * factor, c.g + (lum - c.g) * factor, c.b + (lum - c.b) * factor⟩

/-- All channels of a color lie in `[0,1]`. -/
def Color.InRange (c : Color K) : Prop :=
  0 ≤ c.r ∧ c.r ≤ 1 ∧ 0 ≤ c.g ∧ c.g ≤ 1 ∧ 0 ≤ c.b ∧ c.b ≤ 1

instance (c : Color K) : Decidable c.InRange := by
  unfold Color.InRange; infer_instance

/-- `apply_overcast_effect`, `color_effects.py` lines 10–34. -/
def apply_overcast_effect (horizon_color zenith_color : Color K) (overcast_factor : K) :
    Color K × Color K :=
  if overcast_factor ≤ 0 then (horizon_color, zenith_color)
  else
    let horizon := horizon_color.desaturate overcast_factor
    let zenith := zenith_color.desaturate overcast_factor
    let blend := overcast_factor * (4 / 10 : K)
    let mid := horizon.lerp zenith (1 / 2 : K)
    let horizon := horizon.lerp mid blend
    let zenith := zenith.lerp mid blend
    (horizon.clamp, zenith.clamp)

/-- `apply_turbidity_effect`, `color_effects.py` lines 37–65. -/
def apply_turbidity_effect (horizon_color zenith_color : Color K) (turbidity_level : K) :
    Color K × Color K :=
  let warm := max 0 ((turbidity_level - 11 / 5) / (4 / 5 : K))
  if warm ≤ 0 then (horizon_color, zenith_color)
  else
    let base_luminance := zenith_color.luminance
    let night_attenuation := min 1 (base_luminance * 10)
    let horizon : Color K :=
      (⟨horizon_color.r + (8 / 100 : K) * warm * night_attenuation,
        horizon_color.g, horizon_color.b⟩ : Color K).clamp
    let zenith : Color K :=
      (⟨zenith_color.r + (3 / 100 : K) * warm * night_attenuation,
        zenith_color.g, zenith_color.b⟩ : Color K).clamp
    (horizon, zenith)

/-- The amber glow color `(1.0, 0.65, 0.35)` of `apply_light_pollution_effect`. -/
def pollutionColor : Color K := ⟨1, 13 / 20, 7 / 20⟩

/-- `apply_light_pollution_effect`, `color_effects.py` lines 68–107. -/
def apply_light_pollution_effect (horizon_color zenith_color : Color K)
    (pollution_level : K) : Color K × Color K :=
  if pollution_level ≤ 0 then (horizon_color, zenith_color)
  else
    let base_luminance := zenith_color.luminance
    let blends : K × K :=
      if base_luminance < 1 / 100 then (pollution_level * (18 / 100 : K), 0)
      else (pollution_level * (12 / 100 : K), pollution_level * (3 / 100 : K))
    let horizon := (horizon_color.lerp pollutionColor blends.1).clamp
    let zenith := (zenith_color.lerp pollutionColor blends.2).clamp
    (horizon, zenith)

/-- `apply_weather_effects`, `color_effects.py` lines 110–138.  `cloud_cover` is
accepted but unused, as in the source. -/
def apply_weather_effects (horizon_color zenith_color : Color K)
    (_cloud_cover : K) (humidity : Option K) : Color K × Color K :=
  match humidity with
  | some rh =>
    if rh > 7 / 10 then
      let haze_factor := min (1 / 10 : K) ((rh - 7 / 10) * (3 / 10 : K))
      let horizon := horizon_color.desaturate (haze_factor * (3 / 10 : K))
      let zenith := zenith_color.desaturate (haze_factor * (2 / 10 : K))
      let horizon : Color K :=
        (⟨horizon.r * (21 / 20 : K), horizon.g * 1, horizon.b * (19 / 20 : K)⟩ : Color K).clamp
      let zenith : Color K :=
        (⟨zenith.r * (21 / 20 : K), zenith.g * 1, zenith.b * (19 / 20 : K)⟩ : Color K).clamp
      (horizon, zenith)
    else (horizon_color, zenith_color)
  | none => (horizon_color, zenith_color)

/-- The non-neutral branch of `apply_air_quality_effect`
(`color_effects.py` lines 155–181). -/
def airQualityHaze (horizon_color zenith_color : Color K) (aqi : ℤ) : Color K × Color K :=
  let effect_strength : K := min 1 (max 0 (((aqi : K) - 50) / 250))
  let haze_color : Color K := if aqi ≤ 150 then ⟨8 / 10, 7 / 10, 6 / 10⟩ else ⟨6 / 10, 6 / 10, 5 / 10⟩
  let base_luminance := zenith_color.luminance
  let night_attenuation : K := if base_luminance < 1 / 100 then 5 / 100 else 1
  let horizon_blend := effect_strength * (2 / 10 : K) * night_attenuation
  let zenith_blend := effect_strength * (1 / 10 : K) * night_attenuation
  ((horizon_color.lerp haze_color horizon_blend).clamp,
   (zenith_color.lerp haze_color zenith_blend).clamp)

/-- `apply_air_quality_effect`, `color_effects.py` lines 141–181. -/
def apply_air_quality_effect (horizon_color zenith_color : Color K) (aqi : Option ℤ) :
    Color K × Color K :=
  match aqi with
  | none => (horizon_color, zenith_color)
  | some a =>
    if a ≤ 50 then (horizon_color, zenith_color)
    else airQualityHaze horizon_color zenith_color a

end ColorOps

section FloorOps

variable {K : Type} [LinearOrderedField K] [FloorRing K]

/-- Python's float `%`: `x % m = x - ⌊x/m⌋ * m` (sign of the divisor; for
`m > 0` the result lies in `[0, m)`). -/
def pyFmod (x m : K) : K := x - (⌊x / m⌋ : ℤ) * m

/-- Python's `round` on floats: round half to even. -/
def pyRound (x : K) : ℤ :=
  let f := ⌊x⌋
  let frac := x - (f : K)
  if frac < 1 / 2 then f
  else if 1 / 2 < frac then f + 1
  else if f % 2 = 0 then f else f + 1

end FloorOps

/-- `Heuristics`, `heuristics.py` lines 8–12. -/
structure Heuristics (K : Type) where
  turbidity : K
  overcast : K
  light_pollution : K
deriving DecidableEq, Repr

/-- Cast a heuristics triple along a ring homomorphism (used to move the
`ℚ`-valued derivation into `ℝ` for the end-to-end composition). -/
def Heuristics.map {K L : Type} (f : K → L) (h : Heuristics K) : Heuristics L :=
  ⟨f h.turbidity, f h.overcast, f h.light_pollution⟩

section UseCase

variable {K : Type} [LinearOrderedField K] [FloorRing K]

/-- `_adjust_turbidity_with_humidity`, `compute_sky_use_case.py` lines 155–161. -/
def adjust_turbidity_with_humidity (base_t : K) (rh : Option K) : K :=
  match rh with
  | none => base_t
  | some rh =>
    if rh > 7 / 10 then
      let boost := min (1 / 2 : K) ((rh - 7 / 10) * (12 / 10 : K))
      min (32 / 10 : K) (base_t + boost)
    else base_t

/-- `_derive_aqi`, `compute_sky_use_case.py` lines 164–177. -/
def derive_aqi (heur : Heuristics K) : ℤ :=
  let t_norm := max 0 (min 1 ((heur.turbidity - 2) / (12 / 10 : K)))
  let lp_norm := max 0 (min 1 heur.light_pollution)
  let raw := (t_norm * (7 / 10 : K) + lp_norm * (3 / 10 : K)) * 300
  let raw := raw * (1 - (2 / 10 : K) * heur.overcast)
  max 0 (min 500 (pyRound raw))

/-- Weather sample at the use-case boundary
(`weather_provider_gateway.py`); only the fields the pipeline reads are kept. -/
structure WeatherSample (K : Type) where
  cloud_cover : K
  rel_humidity : K
deriving DecidableEq, Repr

/-- The five compositor stages, used to record the order in which
`ComputeSkyUseCase.execute` invokes them. -/
inductive Stage
  | lightPollution
  | turbidity
  | weather
  | overcast
  | airQuality
deriving DecidableEq, Repr

/-- The effect-application section of `ComputeSkyUseCase.execute`
(`compute_sky_use_case.py` lines 85–136), transcribed statement by statement.
Besides the final `(horizon, zenith)` pair it returns the list of stages in
the order in which they were applied, the possibly humidity-adjusted
heuristics, and the derived AQI.  `lpOn`, `wxOn`, `aqOn` are the preference
toggles `influence_light_pollution`, `influence_weather`,
`influence_air_quality`; `weather` is `None` when no weather gateway or no
sample is available. -/
def applyEffects (lpOn wxOn aqOn : Bool) (heur : Heuristics K)
    (weather : Option (WeatherSample K)) (horizon zenith : Color K) :
    (Color K × Color K) × List Stage × Heuristics K × ℤ :=
  -- 1. Light pollution
  let s1 :=
    if lpOn ∧ heur.light_pollution > 0 then
      (apply_light_pollution_effect horizon zenith heur.light_pollution, [Stage.lightPollution])
    else ((horizon, zenith), [])
  -- 2. Baseline turbidity
  let baseline_turbidity := heur.turbidity
  let s2 :=
    if wxOn then
      (apply_turbidity_effect s1.1.1 s1.1.2 baseline_turbidity, s1.2 ++ [Stage.turbidity])
    else (s1.1, s1.2)
  -- Weather sample handling
  let s3 :=
    match weather with
    | some sample =>
      if wxOn then
        let cloud_cover := sample.cloud_cover
        let humidity := sample.rel_humidity
        let w := (apply_weather_effects s2.1.1 s2.1.2 cloud_cover (some humidity),
                  s2.2 ++ [Stage.weather])
        let o :=
          if cloud_cover > 0 then
            (apply_overcast_effect w.1.1 w.1.2 cloud_cover, w.2 ++ [Stage.overcast])
          else (w.1, w.2)
        let adjusted_turbidity := adjust_turbidity_with_humidity baseline_turbidity (some humidity)
        if adjusted_turbidity ≠ baseline_turbidity then
          ((apply_turbidity_effect o.1.1 o.1.2 adjusted_turbidity, o.2 ++ [Stage.turbidity]),
           ({ heur with turbidity := adjusted_turbidity } : Heuristics K))
        else ((o.1, o.2), heur)
      else ((s2.1, s2.2), heur)
    | none => ((s2.1, s2.2), heur)
  -- 3. Air quality
  let air_quality_index := derive_aqi s3.2
  let s4 :=
    if aqOn then
      (apply_air_quality_effect s3.1.1.1 s3.1.1.2 (some air_quality_index),
       s3.1.2 ++ [Stage.airQuality])
    else (s3.1.1, s3.1.2)
  (s4.1, s4.2, s3.2, air_quality_index)

end UseCase

/-! ### SHA-256 (`hashlib.sha256` as used by `heuristics.py`)

A byte is a `ℕ` below 256, a word a `ℕ` below `2^32`. -/

/-- 32-bit right rotation. -/
def rotr32 (x n : ℕ) : ℕ := ((x >>> n) ||| (x <<< (32 - n))) % 4294967296

/-- SHA-256 `Ch` function. -/
def shaCh (e f g : ℕ) : ℕ := (e &&& f) ^^^ ((e ^^^ 4294967295) &&& g)

/-- SHA-256 `Maj` function. -/
def shaMaj (a b c : ℕ) : ℕ := (a &&& b) ^^^ (a &&& c) ^^^ (b &&& c)

/-- SHA-256 big sigma-0. -/
def shaS0 (a : ℕ) : ℕ := rotr32 a 2 ^^^ rotr32 a 13 ^^^ rotr32 a 22

/-- SHA-256 big sigma-1. -/
def shaS1 (e : ℕ) : ℕ := rotr32 e 6 ^^^ rotr32 e 11 ^^^ rotr32 e 25

/-- SHA-256 small sigma-0. -/
def shas0 (x : ℕ) : ℕ := rotr32 x 7 ^^^ rotr32 x 18 ^^^ (x >>> 3)

/-- SHA-256 small sigma-1. -/
def shas1 (x : ℕ) : ℕ := rotr32 x 17 ^^^ rotr32 x 19 ^^^ (x >>> 10)

/-- SHA-256 round constants. -/
def shaK : List ℕ :=
  [1116352408, 1899447441, 3049323471, 3921009573, 961987163, 1508970993,
   2453635748, 2870763221, 3624381080, 310598401, 607225278, 1426881987,
   1925078388, 2162078206, 2614888103, 3248222580, 3835390401, 4022224774,
   264347078, 604807628, 770255983, 1249150122, 1555081692, 1996064986,
   2554220882, 2821834349, 2952996808, 3210313671, 3336571891, 3584528711,
   113926993, 338241895, 666307205, 773529912, 1294757372, 1396182291,
   1695183700, 1986661051, 2177026350, 2456956037, 2730485921, 2820302411,
   3259730800, 3345764771, 3516065817, 3600352804, 4094571909, 275423344,
   430227734, 506948616, 659060556, 883997877, 958139571, 1322822218,
   1537002063, 1747873779, 1955562222, 2024104815, 2227730452, 2361852424,
   2428436474, 2756734187, 3204031479, 3329325298]

/-- SHA-256 initial hash state. -/
def shaH0 : List ℕ :=
  [1779033703, 3144134277, 1013904242, 2773480762,
   1359893119, 2600822924, 528734635, 1541459225]

/-- Big-endian byte decomposition of `n` into `k` bytes. -/
def bytesBE (k n : ℕ) : List ℕ := (List.range k).map fun i => n / 256 ^ (k - 1 - i) % 256

/-- Big-endian recomposition of a byte list into a natural number
(`int.from_bytes(·, 'big')`). -/
def bytesToNatBE (bs : List ℕ) : ℕ := bs.foldl (fun acc b => acc * 256 + b) 0

/-- SHA-256 message padding: append `0x80`, zeros to 56 mod 64, then the
bit length as 8 big-endian bytes. -/
def shaPad (msg : List ℕ) : List ℕ :=
  msg ++ [128] ++ List.replicate ((119 - msg.length % 64) % 64) 0 ++ bytesBE 8 (8 * msg.length)

/-- Combine 4 big-endian bytes of a chunk into the word at index `i`. -/
def wordAt (chunk : List ℕ) (i : ℕ) : ℕ :=
  ((chunk.getD (4 * i) 0 * 256 + chunk.getD (4 * i + 1) 0) * 256 +
    chunk.getD (4 * i + 2) 0) * 256 + chunk.getD (4 * i + 3) 0

/-- Extend a 16-word message schedule by `n` further words. -/
def shaExtend (w : List ℕ) : ℕ → List ℕ
  | 0 => w
  | n + 1 =>
    let i := w.length
    let nw := (shas1 (w.getD (i - 2) 0) + w.getD (i - 7) 0 + shas0 (w.getD (i - 15) 0) +
      w.getD (i - 16) 0) % 4294967296
    shaExtend (w ++ [nw]) n

/-- One SHA-256 compression round. -/
def shaRound (st : List ℕ) (kw : ℕ × ℕ) : List ℕ :=
  let a := st.getD 0 0
  let b := st.getD 1 0
  let c := st.getD 2 0
  let d := st.getD 3 0
  let e := st.getD 4 0
  let f := st.getD 5 0
  let g := st.getD 6 0
  let h := st.getD 7 0
  let t1 := (h + shaS1 e + shaCh e f g + kw.1 + kw.2) % 4294967296
  let t2 := (shaS0 a + shaMaj a b c) % 4294967296
  [(t1 + t2) % 4294967296, a, b, c, (d + t1) % 4294967296, e, f, g]

/-- Compress one 64-byte chunk into the running hash state. -/
def shaCompress (h : List ℕ) (chunk : List ℕ) : List ℕ :=
  let w := shaExtend ((List.range 16).map (wordAt chunk)) 48
  let st := (shaK.zip w).foldl shaRound h
  (h.zip st).map fun p => (p.1 + p.2) % 4294967296

/-- Split a byte list into 64-byte chunks. -/
def chunks64 : List ℕ → List (List ℕ)
  | [] => []
  | b :: bs => (b :: bs).take 64 :: chunks64 ((b :: bs).drop 64)
termination_by bs => bs.length
decreasing_by simp [List.length_drop]; omega

/-- SHA-256 digest of a byte string, as a list of 32 bytes. -/
def sha256 (msg : List ℕ) : List ℕ :=
  ((chunks64 (shaPad msg)).foldl shaCompress shaH0).flatMap (bytesBE 4)

/-! ### Heuristics derivation (`heuristics.py`) -/

/-- A calendar date, the `datetime.date()` part of the instant handed to
`derive`. -/
structure DateYMD where
  year : ℕ
  month : ℕ
  day : ℕ
deriving DecidableEq, Repr

/-- ASCII bytes of a string.  All seed-key characters (digits, `-`, `.`, `|`)
are ASCII, where UTF-8 encoding is the identity on code points. -/
def asciiBytes (s : String) : List ℕ := s.data.map Char.toNat

/-- Decimal rendering of `n`, left-padded with zeros to width `w`. -/
def padNum (w n : ℕ) : String :=
  let s := toString n
  String.mk (List.replicate (w - s.length) '0') ++ s

/-- `date.isoformat()`: `YYYY-MM-DD`. -/
def isoDate (d : DateYMD) : String :=
  padNum 4 d.year ++ "-" ++ padNum 2 d.month ++ "-" ++ padNum 2 d.day

/-- Python `f'{x:.2f}'` on an exact rational: round to hundredths
(half-to-even) and render with two decimals. -/
def format2 (q : ℚ) : String :=
  let n := pyRound (q * 100)
  (if n < 0 then "-" else "") ++ toString (n.natAbs / 100) ++ "." ++ padNum 2 (n.natAbs % 100)

/-- The seed key `f'{date.date().isoformat()}|{lat_round:.2f}|{lon_round:.2f}'`
of `heuristics.py` line 16. -/
def seedKey (lat_round lon_round : ℚ) (date : DateYMD) : String :=
  isoDate date ++ "|" ++ format2 lat_round ++ "|" ++ format2 lon_round

/-- `_seed_value`, `heuristics.py` lines 15–20: first 8 digest bytes as a
big-endian integer, scaled to `[0,1)`. -/
def seed_value (lat_round lon_round : ℚ) (date : DateYMD) : ℚ :=
  (bytesToNatBE ((sha256 (asciiBytes (seedKey lat_round lon_round date))).take 8) : ℚ) / 2 ^ 64

/-- `derive`, `heuristics.py` lines 23–28. -/
def derive (lat_round lon_round : ℚ) (now : DateYMD) : Heuristics ℚ :=
  let base := seed_value lat_round lon_round now
  { turbidity := 11 / 5 + pyFmod base (4 / 5)
    overcast := pyFmod (base * (137 / 100)) 1
    light_pollution := 7 / 20 + pyFmod (base * (73 / 100)) (3 / 10) }

/-! ### Gradient stops (`atmospheric_scattering.py`, `render_gradient`)

The per-sample radiance integration produces one 8-bit color per view sample;
for the stop/percent bookkeeping (which is what the stop-ordering properties
are about) the sample color computation enters only as a function
`colorAt : Fin 32 → α`.  The view-direction geometry of the loop is kept so
that "zenith-most" and "horizon-most" can be stated. -/

/-- `SAMPLES = 32`, `atmospheric_scattering.py` line 35. -/
def SAMPLES : ℕ := 32

/-- `s = i / (SAMPLES - 1)` of the view-sample loop
(`render_gradient` line 202). -/
def sFrac (i : Fin 32) : ℚ := (i.val : ℚ) / 31

/-- `percent = (1 - s) * 100` (`render_gradient` line 307). -/
def stopPercent (i : Fin 32) : ℚ := (1 - sFrac i) * 100

/-- The un-normalized view direction `(0, s, focal_z)` of
`render_gradient` line 204; `norm` only divides by the positive length. -/
def viewDirRaw (focalZ s : ℚ) : ℚ × ℚ × ℚ := (0, s, focalZ)

/-- Squared cosine of the elevation of the normalized view direction
`norm (0, s, focal_z)` against the up vector `(0,1,0)`; for `s ≥ 0` it
orders the view samples from horizontal (`s = 0`) to most upward-tilted. -/
def upCompSq (focalZ s : ℚ) : ℚ := s ^ 2 / (s ^ 2 + focalZ ^ 2)

/-- The `(percent, color)` stop list built by the view-sample loop, in loop
order (`render_gradient` lines 201–308). -/
def gradientStopsRaw {α : Type} (colorAt : Fin 32 → α) : List (ℚ × α) :=
  (List.finRange 32).map fun i => (stopPercent i, colorAt i)

/-- `stops.sort(key=lambda x: x[0])` of `render_gradient` line 311: stable
sort ascending by percent. -/
def sortedStops {α : Type} (colorAt : Fin 32 → α) : List (ℚ × α) :=
  List.insertionSort (fun p q => p.1 ≤ q.1) (gradientStopsRaw colorAt)

/-- Default stop used for the (provably impossible) empty-list case of the
`stops[0]` / `stops[-1]` indexing. -/
def defaultStop {α : Type} (colorAt : Fin 32 → α) : ℚ × α := (0, colorAt 0)

/-- The color component `stop[1]` of a `(percent, color)` stop. -/
def stopColor {α : Type} (p : ℚ × α) : α := p.2

/-- `stops[0][1]` of `render_gradient` line 318: the first sorted stop's
color, returned as the zenith color.  The list is provably nonempty, so the
`headD` default is never used. -/
def renderZenithColor {α : Type} (colorAt : Fin 32 → α) : α :=
  stopColor ((sortedStops colorAt).headD (defaultStop colorAt))

/-- `stops[len(stops) - 1][1]` of `render_gradient` line 319: the last sorted
stop's color, returned as the horizon color. -/
def renderHorizonColor {α : Type} (colorAt : Fin 32 → α) : α :=
  stopColor ((sortedStops colorAt).getLastD (defaultStop colorAt))

/-- The return triple of `render_gradient` lines 316–320 (the CSS gradient
string is presentation-only and replaced by the sorted stop list itself). -/
def renderGradientStops {α : Type} (colorAt : Fin 32 → α) :
    List (ℚ × α) × α × α :=
  (sortedStops colorAt, renderZenithColor colorAt, renderHorizonColor colorAt)

/-! ### Transmittance (`atmospheric_scattering.py`, `compute_transmittance`)

The `math.exp` / `math.sqrt` / `math.sin` / `math.cos` library calls are taken
as explicit function parameters; every property proved below holds for any
positive-valued exponential, in particular for the exact `Real.exp`. -/

section Transmittance

variable {K : Type} [LinearOrderedField K]

/-- `GROUND_RADIUS = 6_360e3`. -/
def GROUND_RADIUS : K := 6360000

/-- `TOP_RADIUS = 6_460e3`. -/
def TOP_RADIUS : K := 6460000

/-- `dot`, `atmospheric_scattering.py` line 48. -/
def dot3 (v w : K × K × K) : K := v.1 * w.1 + v.2.1 * w.2.1 + v.2.2 * w.2.2

/-- `add`, line 61. -/
def add3 (v w : K × K × K) : K × K × K := (v.1 + w.1, v.2.1 + w.2.1, v.2.2 + w.2.2)

/-- `scale`, line 65. -/
def scale3 (v : K × K × K) (s : K) : K × K × K := (v.1 * s, v.2.1 * s, v.2.2 * s)

/-- `length`, line 52, with the square root passed in. -/
def length3 (sqrtF : K → K) (v : K × K × K) : K :=
  sqrtF (v.1 * v.1 + v.2.1 * v.2.1 + v.2.2 * v.2.2)

/-- `intersect_sphere`, lines 73–87. -/
def intersect_sphere (sqrtF : K → K) (p d : K × K × K) (r : K) : Option K :=
  let b := dot3 p d
  let c := dot3 p p - r * r
  let discr := b * b - c
  if discr < 0 then none
  else
    let t := -b - sqrtF discr
    if t < 0 then some (-b + sqrtF discr) else some t

/-- `compute_transmittance`, lines 90–152.  The Python `try/except
OverflowError` around `math.exp` only rescues an overflowing (astronomically
large) result; the exact exponential never overflows, so the density is
`expF` applied directly. -/
def compute_transmittance (expF sqrtF sinF cosF : K → K) (height angle : K) :
    K × K × K :=
  let ray_origin : K × K × K := (0, GROUND_RADIUS + height, 0)
  let ray_direction : K × K × K := (sinF angle, cosF angle, 0)
  match intersect_sphere sqrtF ray_origin ray_direction TOP_RADIUS with
  | none => (1, 1, 1)
  | some distance =>
    let segment_length := distance / 32
    let init : K × K × K × K := (0, 0, 0, segment_length / 2)
    let st := (List.range 32).foldl
      (fun (st : K × K × K × K) _ =>
        let od_rayleigh := st.1
        let od_mie := st.2.1
        let od_ozone := st.2.2.1
        let t := st.2.2.2
        let pos := add3 ray_origin (scale3 ray_direction t)
        let h := length3 sqrtF pos - GROUND_RADIUS
        let d_r := expF (-h / 8000)
        let d_m := expF (-h / 1200)
        let ozone_density := 1 - min (|h - 25000| / 15000) 1
        (od_rayleigh + d_r * segment_length,
         od_mie + d_m * segment_length,
         od_ozone + ozone_density * segment_length,
         t + segment_length))
      init
    let od_rayleigh := st.1
    let od_mie := st.2.1
    let od_ozone := st.2.2.1
    let tau_r : K × K × K :=
      ((5802 / 10 ^ 9 : K) * od_rayleigh, (13558 / 10 ^ 9 : K) * od_rayleigh,
       (331 / 10 ^ 7 : K) * od_rayleigh)
    let tau_m : K := (444 / 10 ^ 8 : K) * od_mie
    let tau_o : K × K × K :=
      ((65 / 10 ^ 8 : K) * od_ozone, (1881 / 10 ^ 9 : K) * od_ozone,
       (85 / 10 ^ 9 : K) * od_ozone)
    (expF (-(tau_r.1 + tau_m + tau_o.1)),
     expF (-(tau_r.2.1 + tau_m + tau_o.2.1)),
     expF (-(tau_r.2.2 + tau_m + tau_o.2.2)))

/-- The camera-to-sample transmittance ratio of `render_gradient`
lines 254–259: per channel, `to_space / camera_to_space` when the ray
initially points downward, `camera_to_space / to_space` otherwise.  The
division is unguarded, exactly as in the source. -/
def transmittanceCameraToSample (downward : Bool) (camera_to_space to_space : K × K × K) :
    K × K × K :=
  if downward then
    (to_space.1 / camera_to_space.1, to_space.2.1 / camera_to_space.2.1,
     to_space.2.2 / camera_to_space.2.2)
  else
    (camera_to_space.1 / to_space.1, camera_to_space.2.1 / to_space.2.1,
     camera_to_space.2.2 / to_space.2.2)

end Transmittance

/-! ### Solar position (`geo/sun.py`), over `ℝ` -/

noncomputable section SunReal

open Real

/-- `_DEG2RAD * x`: degrees to radians. -/
def deg2rad (x : ℝ) : ℝ := x * (π / 180)

/-- `_OBLIQUITY = _DEG2RAD * 23.4397`. -/
def OBLIQUITY : ℝ := deg2rad 23.4397

/-- `_to_julian`, `sun.py` lines 28–33, on the POSIX timestamp (seconds) of
the UTC instant. -/
def toJulian (ts : ℝ) : ℝ := ts * 1000 / 86400000 - 0.5 + 2440588

/-- `_to_days`, lines 36–38. -/
def toDays (ts : ℝ) : ℝ := toJulian ts - 2451545

/-- `_solar_mean_anomaly`, lines 41–43. -/
def solarMeanAnomaly (d : ℝ) : ℝ := deg2rad (357.5291 + 0.98560028 * d)

/-- `_ecliptic_longitude`, lines 46–52. -/
def eclipticLongitude (M : ℝ) : ℝ :=
  M + deg2rad (1.9148 * sin M + 0.02 * sin (2 * M) + 0.0003 * sin (3 * M)) +
    deg2rad 102.9372 + π

/-- `math.atan2` (IEEE semantics on finite inputs). -/
def atan2 (y x : ℝ) : ℝ :=
  if 0 < x then arctan (y / x)
  else if x < 0 then (if 0 ≤ y then arctan (y / x) + π else arctan (y / x) - π)
  else if 0 < y then π / 2
  else if y < 0 then -(π / 2)
  else 0

/-- `_right_ascension`, lines 55–59. -/
def rightAscension (l b : ℝ) : ℝ :=
  atan2 (sin l * cos OBLIQUITY - tan b * sin OBLIQUITY) (cos l)

/-- `_declination`, lines 62–64. -/
def declination (l b : ℝ) : ℝ :=
  arcsin (sin b * cos OBLIQUITY + cos b * sin OBLIQUITY * sin l)

/-- `_sidereal_time`, lines 74–76. -/
def siderealTime (d lw : ℝ) : ℝ := deg2rad (280.16 + 360.9856235 * d) - lw

/-- `_altitude`, lines 79–81. -/
def altitudeOf (H phi dec : ℝ) : ℝ :=
  arcsin (sin phi * sin dec + cos phi * cos dec * cos H)

/-- `_azimuth`, lines 84–86. -/
def azimuthOf (H phi dec : ℝ) : ℝ :=
  atan2 (sin H) (cos H * sin phi - tan dec * cos phi)

/-- `sun_position`, lines 89–111, as `(altitude_deg, azimuth_deg)` of the
POSIX timestamp and the coordinates in degrees. -/
def sunPosition (ts lat lon : ℝ) : ℝ × ℝ :=
  let lw := deg2rad (-lon)
  let phi := deg2rad lat
  let d := toDays ts
  let M := solarMeanAnomaly d
  let L := eclipticLongitude M
  let ra := rightAscension L 0
  let dec := declination L 0
  let H := siderealTime d lw - ra
  let alt_deg := altitudeOf H phi dec * (180 / π)
  let az_deg := pyFmod (azimuthOf H phi dec * (180 / π) + 360) 360
  (alt_deg, az_deg)

/-- The computation-relevant core of `ComputeSkyUseCase.execute`
(`compute_sky_use_case.py` lines 77–136) for an already-rounded location:
solar altitude from the instant, base colors from the scattering renderer
(passed as the function `base`, standing for `atmospheric_sky_colors`),
heuristics from the rounded coordinates and calendar date, then the effect
pipeline.  `ts` is the POSIX timestamp of the instant `now` and `date` its
calendar date; regime classification and snapshot assembly are
presentation-side and omitted. -/
def executeColors (base : ℝ → Color ℝ × Color ℝ) (lpOn wxOn aqOn : Bool)
    (latr lonr : ℚ) (date : DateYMD) (ts : ℚ) (weather : Option (WeatherSample ℝ)) :
    Color ℝ × Color ℝ :=
  let sunAltDeg := (sunPosition (ts : ℝ) (latr : ℝ) (lonr : ℝ)).1
  let bz := base sunAltDeg
  let heur := (derive latr lonr date).map (fun q : ℚ => (q : ℝ))
  (applyEffects lpOn wxOn aqOn heur weather bz.1 bz.2).1

end SunReal

/-! ## Helper lemmas -/

section ColorLemmas

variable {K : Type} [LinearOrderedField K]

theorem Color.clamp_inRange (c : Color K) : c.clamp.InRange := by
  refine ⟨le_max_left _ _, max_le (by norm_num) (min_le_left _ _),
    le_max_left _ _, max_le (by norm_num) (min_le_left _ _),
    le_max_left _ _, max_le (by norm_num) (min_le_left _ _)⟩

theorem Color.clamp_of_inRange {c : Color K} (h : c.InRange) : c.clamp = c := by
  obtain ⟨h1, h2, h3, h4, h5, h6⟩ := h
  cases c
  simp only [Color.clamp, Color.mk.injEq]
  refine ⟨?_, ?_, ?_⟩ <;> rw [min_eq_right, max_eq_right] <;> assumption

theorem Color.lerp_inRange {c o : Color K} {t : K} (hc : c.InRange) (ho : o.InRange)
    (h0 : 0 ≤ t) (h1 : t ≤ 1) : (c.lerp o t).InRange := by
  obtain ⟨a1, a2, a3, a4, a5, a6⟩ := hc
  obtain ⟨b1, b2, b3, b4, b5, b6⟩ := ho
  refine ⟨?_, ?_, ?_, ?_, ?_, ?_⟩ <;> simp only [Color.lerp] <;> nlinarith

theorem Color.lerp_zero (c o : Color K) : c.lerp o 0 = c := by
  simp [Color.lerp]

theorem pollutionColor_inRange : (pollutionColor : Color K).InRange := by
  refine ⟨?_, ?_, ?_, ?_, ?_, ?_⟩ <;> simp [pollutionColor] <;> norm_num

end ColorLemmas

section FmodLemmas

variable {K : Type} [LinearOrderedField K] [FloorRing K]

theorem pyFmod_nonneg (x : K) {m : K} (hm : 0 < m) : 0 ≤ pyFmod x m := by
  have h := Int.floor_le (x / m)
  have : (⌊x / m⌋ : K) * m ≤ x := by
    rw [← le_div_iff₀ hm]; exact h
  simpa [pyFmod, sub_nonneg] using this

theorem pyFmod_lt (x : K) {m : K} (hm : 0 < m) : pyFmod x m < m := by
  have h := Int.lt_floor_add_one (x / m)
  have : x < ((⌊x / m⌋ : K) + 1) * m := by
    rw [← div_lt_iff₀ hm]; exact h
  simp only [pyFmod]
  nlinarith

theorem pyRound_ge_floor (x : K) : ⌊x⌋ ≤ pyRound x := by
  simp only [pyRound]
  split_ifs <;> omega

theorem pyRound_le_floor_add_one (x : K) : pyRound x ≤ ⌊x⌋ + 1 := by
  simp only [pyRound]
  split_ifs <;> omega

end FmodLemmas

section ByteLemmas

theorem bytesBE_lt {k n b : ℕ} (h : b ∈ bytesBE k n) : b < 256 := by
  simp only [bytesBE, List.mem_map] at h
  obtain ⟨i, _, rfl⟩ := h
  exact Nat.mod_lt _ (by norm_num)

theorem sha256_bytes_lt {msg : List ℕ} {b : ℕ} (h : b ∈ sha256 msg) : b < 256 := by
  simp only [sha256, List.mem_flatMap] at h
  obtain ⟨w, _, hb⟩ := h
  exact bytesBE_lt hb

theorem bytesToNatBE_foldl_lt :
    ∀ (bs : List ℕ) (acc : ℕ), (∀ b ∈ bs, b < 256) →
      bs.foldl (fun acc b => acc * 256 + b) acc < (acc + 1) * 256 ^ bs.length := by
  intro bs
  induction bs with
  | nil => intro acc _; simp
  | cons b bs ih =>
    intro acc hlt
    have hb : b < 256 := hlt b (List.mem_cons_self _ _)
    have hrec := ih (acc * 256 + b) fun x hx => hlt x (List.mem_cons_of_mem _ hx)
    calc (b :: bs).foldl (fun acc b => acc * 256 + b) acc
        = bs.foldl (fun acc b => acc * 256 + b) (acc * 256 + b) := rfl
      _ < (acc * 256 + b + 1) * 256 ^ bs.length := hrec
      _ ≤ (acc + 1) * 256 ^ (b :: bs).length := by
          simp only [List.length_cons, pow_succ]
          have hstep : acc * 256 + b + 1 ≤ (acc + 1) * 256 := by omega
          calc (acc * 256 + b + 1) * 256 ^ bs.length
              ≤ (acc + 1) * 256 * 256 ^ bs.length := Nat.mul_le_mul_right _ hstep
            _ = (acc + 1) * (256 ^ bs.length * 256) := by ring

theorem bytesToNatBE_lt {bs : List ℕ} (h : ∀ b ∈ bs, b < 256) :
    bytesToNatBE bs < 256 ^ bs.length := by
  simpa [bytesToNatBE] using bytesToNatBE_foldl_lt bs 0 h

theorem seed_value_mem_Ico (lat lon : ℚ) (d : DateYMD) :
    0 ≤ seed_value lat lon d ∧ seed_value lat lon d < 1 := by
  constructor
  · exact div_nonneg (by positivity) (by positivity)
  · simp only [seed_value]
    rw [div_lt_one (by positivity)]
    have hlt : bytesToNatBE ((sha256 (asciiBytes (seedKey lat lon d))).take 8) <
        256 ^ ((sha256 (asciiBytes (seedKey lat lon d))).take 8).length :=
      bytesToNatBE_lt fun b hb => sha256_bytes_lt (List.mem_of_mem_take hb)
    have hlen : ((sha256 (asciiBytes (seedKey lat lon d))).take 8).length ≤ 8 := by
      simp
    have : (256 : ℕ) ^ ((sha256 (asciiBytes (seedKey lat lon d))).take 8).length ≤ 256 ^ 8 :=
      Nat.pow_le_pow_right (by norm_num) hlen
    have hn : bytesToNatBE ((sha256 (asciiBytes (seedKey lat lon d))).take 8) < 2 ^ 64 := by
      calc bytesToNatBE _ < 256 ^ _ := hlt
        _ ≤ 256 ^ 8 := this
        _ = 2 ^ 64 := by norm_num
    exact_mod_cast (by exact_mod_cast hn : (bytesToNatBE _ : ℚ) < (2 ^ 64 : ℕ))

end ByteLemmas

section DeriveLemmas

theorem derive_ranges (lat lon : ℚ) (d : DateYMD) :
    11 / 5 ≤ (derive lat lon d).turbidity ∧ (derive lat lon d).turbidity < 3 ∧
    0 ≤ (derive lat lon d).overcast ∧ (derive lat lon d).overcast < 1 ∧
    7 / 20 ≤ (derive lat lon d).light_pollution ∧
    (derive lat lon d).light_pollution < 13 / 20 := by
  simp only [derive]
  have h1 := pyFmod_nonneg (seed_value lat lon d) (show (0 : ℚ) < 4 / 5 by norm_num)
  have h2 := pyFmod_lt (seed_value lat lon d) (show (0 : ℚ) < 4 / 5 by norm_num)
  have h3 := pyFmod_nonneg (seed_value lat lon d * (137 / 100)) (show (0 : ℚ) < 1 by norm_num)
  have h4 := pyFmod_lt (seed_value lat lon d * (137 / 100)) (show (0 : ℚ) < 1 by norm_num)
  have h5 := pyFmod_nonneg (seed_value lat lon d * (73 / 100)) (show (0 : ℚ) < 3 / 10 by norm_num)
  have h6 := pyFmod_lt (seed_value lat lon d * (73 / 100)) (show (0 : ℚ) < 3 / 10 by norm_num)
  refine ⟨by linarith, by linarith, h3, h4, by linarith, by linarith⟩

end DeriveLemmas

/-! ## Claim theorems -/

/-- Claim C1: `derive` is referentially transparent — identical rounded
latitude, longitude and calendar date give identical `Heuristics` — and for
every input `turbidity ∈ [2.2, 3.0]`, `overcast ∈ [0, 1)`,
`light_pollution ∈ [0.35, 0.65]`, with the seed base equal to the first
8 bytes of the SHA-256 digest of the UTF-8 seed string read as a big-endian
unsigned 64-bit integer divided by `2^64` (hence in `[0,1)`). -/
theorem derive_deterministic_and_ranges :
    (∀ (lat lon lat' lon' : ℚ) (d d' : DateYMD), lat = lat' → lon = lon' → d = d' →
      derive lat lon d = derive lat' lon' d') ∧
    (∀ (lat lon : ℚ) (d : DateYMD),
      (2.2 : ℚ) ≤ (derive lat lon d).turbidity ∧ (derive lat lon d).turbidity ≤ 3 ∧
      0 ≤ (derive lat lon d).overcast ∧ (derive lat lon d).overcast < 1 ∧
      (0.35 : ℚ) ≤ (derive lat lon d).light_pollution ∧
      (derive lat lon d).light_pollution ≤ (0.65 : ℚ)) ∧
    (∀ (lat lon : ℚ) (d : DateYMD),
      seed_value lat lon d =
        (bytesToNatBE ((sha256 (asciiBytes (seedKey lat lon d))).take 8) : ℚ) / 2 ^ 64 ∧
      0 ≤ seed_value lat lon d ∧ seed_value lat lon d < 1) := by
  refine ⟨fun lat lon lat' lon' d d' h1 h2 h3 => by rw [h1, h2, h3], ?_, ?_⟩
  · intro lat lon d
    obtain ⟨r1, r2, r3, r4, r5, r6⟩ := derive_ranges lat lon d
    norm_num
    exact ⟨r1, r2.le, r3, r4, r5, r6.le⟩
  · intro lat lon d
    exact ⟨rfl, seed_value_mem_Ico lat lon d⟩

/-- Witness for C1 at a concrete input. -/
theorem derive_deterministic_and_ranges_witness :
    derive 40 (-100) ⟨2025, 8, 11⟩ = derive 40 (-100) ⟨2025, 8, 11⟩ :=
  derive_deterministic_and_ranges.1 40 (-100) 40 (-100) ⟨2025, 8, 11⟩ ⟨2025, 8, 11⟩ rfl rfl rfl

/-- Claim C6: every compositor stage is the exact identity at its neutral
parameter: `pollution_level = 0`, `turbidity ≤ 2.2`, humidity absent or
`≤ 0.7`, `overcast_factor = 0`, AQI absent or `≤ 50`. -/
theorem stages_neutral_identity {K : Type} [LinearOrderedField K] :
    ∀ h z : Color K, h.InRange → z.InRange →
      apply_light_pollution_effect h z 0 = (h, z) ∧
      (∀ t : K, t ≤ 11 / 5 → apply_turbidity_effect h z t = (h, z)) ∧
      (∀ cc : K, apply_weather_effects h z cc none = (h, z)) ∧
      (∀ cc rh : K, rh ≤ 7 / 10 → apply_weather_effects h z cc (some rh) = (h, z)) ∧
      apply_overcast_effect h z 0 = (h, z) ∧
      apply_air_quality_effect h z none = (h, z) ∧
      (∀ a : ℤ, a ≤ 50 → apply_air_quality_effect h z (some a) = (h, z)) := by
  intro h z _ _
  refine ⟨?_, ?_, ?_, ?_, ?_, ?_, ?_⟩
  · simp [apply_light_pollution_effect]
  · intro t ht
    have hw : (t - 11 / 5) / (4 / 5 : K) ≤ 0 :=
      div_nonpos_iff.2 (Or.inr ⟨by linarith, by norm_num⟩)
    simp [apply_turbidity_effect, hw]
  · intro cc; rfl
  · intro cc rh hrh
    simp [apply_weather_effects, not_lt.2 hrh]
  · simp [apply_overcast_effect]
  · rfl
  · intro a ha
    simp [apply_air_quality_effect, if_pos ha]

/-- Witness for C6 at a concrete input. -/
theorem stages_neutral_identity_witness :
    apply_light_pollution_effect (K := ℚ) ⟨1 / 2, 1 / 4, 3 / 4⟩ ⟨1 / 3, 1 / 5, 2 / 3⟩ 0 =
      (⟨1 / 2, 1 / 4, 3 / 4⟩, ⟨1 / 3, 1 / 5, 2 / 3⟩) :=
  (stages_neutral_identity ⟨1 / 2, 1 / 4, 3 / 4⟩ ⟨1 / 3, 1 / 5, 2 / 3⟩
    (by norm_num [Color.InRange]) (by norm_num [Color.InRange])).1

/-- Claim C3: every compositor stage maps an in-range `(horizon, zenith)`
pair to an in-range pair (channels in `[0,1]`, hence never negative; `NaN`
does not exist in the exact model), for all stage parameters. -/
theorem stages_preserve_inRange {K : Type} [LinearOrderedField K] :
    ∀ h z : Color K, h.InRange → z.InRange →
      (∀ lvl : K, (apply_light_pollution_effect h z lvl).1.InRange ∧
        (apply_light_pollution_effect h z lvl).2.InRange) ∧
      (∀ t : K, (apply_turbidity_effect h z t).1.InRange ∧
        (apply_turbidity_effect h z t).2.InRange) ∧
      (∀ (cc : K) (rh : Option K), (apply_weather_effects h z cc rh).1.InRange ∧
        (apply_weather_effects h z cc rh).2.InRange) ∧
      (∀ f : K, (apply_overcast_effect h z f).1.InRange ∧
        (apply_overcast_effect h z f).2.InRange) ∧
      (∀ a : Option ℤ, (apply_air_quality_effect h z a).1.InRange ∧
        (apply_air_quality_effect h z a).2.InRange) := by
  intro h z hh hz
  refine ⟨?_, ?_, ?_, ?_, ?_⟩
  · intro lvl
    by_cases h0 : lvl ≤ 0
    · simp [apply_light_pollution_effect, if_pos h0, hh, hz]
    · simp only [apply_light_pollution_effect, if_neg h0]
      exact ⟨Color.clamp_inRange _, Color.clamp_inRange _⟩
  · intro t
    by_cases h0 : (t - 11 / 5) / (4 / 5 : K) ≤ 0
    · simp [apply_turbidity_effect, h0, hh, hz]
    · simp only [apply_turbidity_effect, max_le_iff, le_refl, true_and, if_neg h0]
      exact ⟨Color.clamp_inRange _, Color.clamp_inRange _⟩
  · intro cc rh
    match rh with
    | none => exact ⟨hh, hz⟩
    | some rh =>
      by_cases h0 : rh > 7 / 10
      · simp only [apply_weather_effects, if_pos h0]
        exact ⟨Color.clamp_inRange _, Color.clamp_inRange _⟩
      · simp [apply_weather_effects, if_neg h0, hh, hz]
  · intro f
    by_cases h0 : f ≤ 0
    · simp [apply_overcast_effect, if_pos h0, hh, hz]
    · simp only [apply_overcast_effect, if_neg h0]
      exact ⟨Color.clamp_inRange _, Color.clamp_inRange _⟩
  · intro a
    match a with
    | none => exact ⟨hh, hz⟩
    | some a =>
      by_cases h0 : a ≤ 50
      · simp [apply_air_quality_effect, if_pos h0, hh, hz]
      · simp only [apply_air_quality_effect, if_neg h0, airQualityHaze]
        exact ⟨Color.clamp_inRange _, Color.clamp_inRange _⟩

/-- Witness for C3 at a concrete input. -/
theorem stages_preserve_inRange_witness :
    (apply_overcast_effect (K := ℚ) ⟨1, 0, 1 / 2⟩ ⟨0, 1, 1 / 4⟩ (1 / 2)).1.InRange ∧
      (apply_overcast_effect (K := ℚ) ⟨1, 0, 1 / 2⟩ ⟨0, 1, 1 / 4⟩ (1 / 2)).2.InRange :=
  (stages_preserve_inRange ⟨1, 0, 1 / 2⟩ ⟨0, 1, 1 / 4⟩ (by norm_num [Color.InRange])
    (by norm_num [Color.InRange])).2.2.2.1 (1 / 2)

/-- Claim C5, counterexample: for `pollution_level = 6` (> 0) with black
in-range colors and a deep-night zenith, the returned horizon color is the
clamp of the blend, not the blend `0.18 × pollution_level` itself — the
claim's "for every pollution_level > 0" fails once the blend factor exceeds 1
and the final clamp bites. -/
theorem light_pollution_exact_blend_counterexample :
    apply_light_pollution_effect (K := ℚ) ⟨0, 0, 0⟩ ⟨0, 0, 0⟩ 6 ≠
      ((⟨0, 0, 0⟩ : Color ℚ).lerp pollutionColor (6 * (18 / 100)), (⟨0, 0, 0⟩ : Color ℚ)) := by
  have hlum : (⟨0, 0, 0⟩ : Color ℚ).luminance < 1 / 100 := by
    norm_num [Color.luminance]
  intro hEq
  have := congrArg (fun p => (Prod.fst p).r) hEq
  simp only [apply_light_pollution_effect, hlum, if_pos, if_neg, Color.lerp, Color.clamp,
    pollutionColor] at this
  norm_num at this

/-- Claim C5 (amended: restricted to the documented parameter range
`pollution_level ≤ 1`, which the counterexample above forces): for in-range
colors and `0 < pollution_level ≤ 1`, a deep-night zenith
(luminance < 0.01) is returned unchanged (blend exactly 0) while the horizon
is blended toward the amber `(1.0, 0.65, 0.35)` by exactly
`0.18 × pollution_level`; otherwise the horizon blend is
`0.12 × pollution_level` and the zenith blend `0.03 × pollution_level`. -/
theorem light_pollution_exact_blend {K : Type} [LinearOrderedField K]
    (h z : Color K) (lvl : K) (hh : h.InRange) (hz : z.InRange)
    (h0 : 0 < lvl) (h1 : lvl ≤ 1) :
    (z.luminance < 1 / 100 →
      apply_light_pollution_effect h z lvl =
        (h.lerp pollutionColor (lvl * (18 / 100)), z)) ∧
    (¬ z.luminance < 1 / 100 →
      apply_light_pollution_effect h z lvl =
        (h.lerp pollutionColor (lvl * (12 / 100)),
         z.lerp pollutionColor (lvl * (3 / 100)))) := by
  have hnle : ¬ lvl ≤ 0 := not_le.2 h0
  constructor
  · intro hdeep
    simp only [apply_light_pollution_effect, if_neg hnle, if_pos hdeep]
    rw [Color.lerp_zero, Color.clamp_of_inRange hz,
      Color.clamp_of_inRange (Color.lerp_inRange hh pollutionColor_inRange
        (by positivity) (by nlinarith))]
  · intro hday
    simp only [apply_light_pollution_effect, if_neg hnle, if_neg hday]
    rw [Color.clamp_of_inRange (Color.lerp_inRange hh pollutionColor_inRange
        (by positivity) (by nlinarith)),
      Color.clamp_of_inRange (Color.lerp_inRange hz pollutionColor_inRange
        (by positivity) (by nlinarith))]

/-- Witness for the amended C5 at a concrete input. -/
theorem light_pollution_exact_blend_witness :
    apply_light_pollution_effect (K := ℚ) ⟨1 / 2, 1 / 2, 1 / 2⟩ ⟨0, 0, 0⟩ (1 / 2) =
      ((⟨1 / 2, 1 / 2, 1 / 2⟩ : Color ℚ).lerp pollutionColor (1 / 2 * (18 / 100)),
       (⟨0, 0, 0⟩ : Color ℚ)) :=
  (light_pollution_exact_blend ⟨1 / 2, 1 / 2, 1 / 2⟩ ⟨0, 0, 0⟩ (1 / 2)
    (by norm_num [Color.InRange]) (by norm_num [Color.InRange]) (by norm_num) (by norm_num)).1
    (by norm_num [Color.luminance])

/-- Claim C10: the AQI derived from any `derive`-produced heuristics triple
is at least 53 (hence strictly above 50) and at most 500, so with the
air-quality toggle enabled `apply_air_quality_effect` never takes its
neutral early-return branch on a heuristics-derived AQI. -/
theorem derive_aqi_never_neutral :
    ∀ (lat lon : ℚ) (d : DateYMD),
      53 ≤ derive_aqi (derive lat lon d) ∧ derive_aqi (derive lat lon d) ≤ 500 ∧
      50 < derive_aqi (derive lat lon d) ∧
      ∀ hc zc : Color ℚ,
        apply_air_quality_effect hc zc (some (derive_aqi (derive lat lon d))) =
          airQualityHaze hc zc (derive_aqi (derive lat lon d)) := by
  intro lat lon d
  obtain ⟨r1, r2, r3, r4, r5, r6⟩ := derive_ranges lat lon d
  set t := (derive lat lon d).turbidity
  set ov := (derive lat lon d).overcast
  set lp := (derive lat lon d).light_pollution
  have hx1 : (1 : ℚ) / 6 ≤ (t - 2) / (12 / 10) := by
    rw [le_div_iff₀ (by norm_num)]; linarith
  have hx2 : (t - 2) / (12 / 10) ≤ 5 / 6 := by
    rw [div_le_iff₀ (by norm_num)]; linarith
  have htn : max 0 (min 1 ((t - 2) / (12 / 10 : ℚ))) = (t - 2) / (12 / 10) := by
    rw [min_eq_right (le_trans hx2 (by norm_num)), max_eq_right (le_trans (by norm_num) hx1)]
  have hln : max 0 (min 1 lp) = lp := by
    rw [min_eq_right (by linarith), max_eq_right (by linarith)]
  have hkey : derive_aqi (derive lat lon d) =
      pyRound (((t - 2) / (12 / 10) * (7 / 10) + lp * (3 / 10)) * 300 *
        (1 - 2 / 10 * ov) : ℚ) ∧
      53 ≤ derive_aqi (derive lat lon d) ∧ derive_aqi (derive lat lon d) ≤ 234 := by
    set raw := ((t - 2) / (12 / 10) * (7 / 10) + lp * (3 / 10)) * 300 * (1 - 2 / 10 * ov) with hraw
    have hA : (133 / 2 : ℚ) ≤ ((t - 2) / (12 / 10) * (7 / 10) + lp * (3 / 10)) * 300 := by
      linarith
    have hAu : ((t - 2) / (12 / 10) * (7 / 10) + lp * (3 / 10)) * 300 ≤ (467 / 2 : ℚ) := by
      linarith
    have hB : (4 / 5 : ℚ) < 1 - 2 / 10 * ov := by linarith
    have hBle : (1 - 2 / 10 * ov : ℚ) ≤ 1 := by linarith
    have hrawlb : (266 / 5 : ℚ) < raw := by
      rw [hraw]
      nlinarith
    have hrawub : raw ≤ 467 / 2 := by
      rw [hraw]
      nlinarith
    have hfl : (53 : ℤ) ≤ ⌊raw⌋ := Int.le_floor.2 (by push_cast; linarith)
    have hfu : ⌊raw⌋ < 234 := Int.floor_lt.2 (by push_cast; linarith)
    have hp1 : (53 : ℤ) ≤ pyRound raw := le_trans hfl (pyRound_ge_floor raw)
    have hp2 : pyRound raw ≤ 234 := le_trans (pyRound_le_floor_add_one raw) (by omega)
    have haqi : derive_aqi (derive lat lon d) = pyRound raw := by
      simp only [derive_aqi, htn, hln, ← hraw]
      rw [min_eq_right (by omega), max_eq_right (by omega)]
    exact ⟨haqi, haqi ▸ hp1, haqi ▸ hp2⟩
  obtain ⟨-, hlb, hub⟩ := hkey
  refine ⟨hlb, by omega, by omega, ?_⟩
  intro hc zc
  simp only [apply_air_quality_effect]
  rw [if_neg (by omega)]

/-- Claim C2, counterexample: with all toggles enabled, a heuristics triple
with turbidity 2.5, and a weather sample with cloud cover 0.5 and relative
humidity 0.8, the pipeline applies the stage sequence
light pollution → turbidity → weather → overcast → turbidity → air quality:
the turbidity stage runs a second time after the overcast stage, so the trace
is not a subsequence of the five-stage order asserted by the claim. -/
theorem applyEffects_double_turbidity_counterexample :
    ¬ ((applyEffects (K := ℚ) true true true ⟨5 / 2, 3 / 10, 1 / 2⟩
        (some ⟨1 / 2, 4 / 5⟩) ⟨0, 0, 0⟩ ⟨0, 0, 0⟩).2.1).Sublist
      [Stage.lightPollution, Stage.turbidity, Stage.weather, Stage.overcast,
       Stage.airQuality] := by
  have htrace : (applyEffects (K := ℚ) true true true ⟨5 / 2, 3 / 10, 1 / 2⟩
      (some ⟨1 / 2, 4 / 5⟩) ⟨0, 0, 0⟩ ⟨0, 0, 0⟩).2.1 =
      [Stage.lightPollution, Stage.turbidity, Stage.weather, Stage.overcast,
       Stage.turbidity, Stage.airQuality] := by
    norm_num [applyEffects, adjust_turbidity_with_humidity]
  rw [htrace]
  decide

/-- Claim C2 (amended: the only deviation from the claimed five-stage order
is a second turbidity application, after overcast, when the weather toggle is
on and the attached weather sample raises the humidity-adjusted turbidity):
for every preference toggles, heuristics, optional weather sample and input
colors, the applied-stage trace is a subsequence of
light pollution → turbidity → weather → overcast → turbidity → air quality. -/
theorem applyEffects_stage_order {K : Type} [LinearOrderedField K] [FloorRing K] :
    ∀ (lpOn wxOn aqOn : Bool) (heur : Heuristics K) (w : Option (WeatherSample K))
      (h z : Color K),
      ((applyEffects lpOn wxOn aqOn heur w h z).2.1).Sublist
        [Stage.lightPollution, Stage.turbidity, Stage.weather, Stage.overcast,
         Stage.turbidity, Stage.airQuality] := by
  intro lpOn wxOn aqOn heur w h z
  rcases w with _ | sample <;>
    simp only [applyEffects] <;>
    split_ifs <;>
    simp_all

/-! ### Gradient stop lemmas (for the `render_gradient` claims) -/

section StopLemmas

theorem sFrac_nonneg (i : Fin 32) : 0 ≤ sFrac i := by rw [sFrac]; positivity

theorem sFrac_le_one (i : Fin 32) : sFrac i ≤ 1 := by
  have : (i.val : ℚ) ≤ 31 := by exact_mod_cast Nat.lt_succ_iff.1 i.isLt
  rw [sFrac, div_le_one (by norm_num)]
  exact this

theorem sFrac_strictMono {i j : Fin 32} (h : i < j) : sFrac i < sFrac j := by
  have h1 : (i.val : ℚ) < j.val := by exact_mod_cast h
  rw [sFrac, sFrac, div_lt_div_iff_of_pos_right (by norm_num : (0 : ℚ) < 31)]
  exact h1

theorem stopPercent_le_100 (i : Fin 32) : stopPercent i ≤ 100 := by
  have := sFrac_nonneg i
  simp only [stopPercent]
  nlinarith

theorem stopPercent_nonneg (i : Fin 32) : 0 ≤ stopPercent i := by
  have := sFrac_le_one i
  simp only [stopPercent]
  nlinarith

theorem stopPercent_anti {i j : Fin 32} (h : i < j) : stopPercent j < stopPercent i := by
  have h1 : sFrac i < sFrac j := sFrac_strictMono h
  simp only [stopPercent]
  nlinarith

theorem sFrac_31 : sFrac 31 = 1 := by
  have hv : ((31 : Fin 32)).val = 31 := rfl
  rw [sFrac, hv]
  norm_num

theorem sFrac_0 : sFrac 0 = 0 := by
  have hv : ((0 : Fin 32)).val = 0 := rfl
  rw [sFrac, hv]
  norm_num

theorem stopPercent_31 : stopPercent 31 = 0 := by
  rw [stopPercent, sFrac_31]
  norm_num

theorem stopPercent_0 : stopPercent 0 = 100 := by
  rw [stopPercent, sFrac_0]
  norm_num

theorem stopPercent_eq_zero {i : Fin 32} (h : stopPercent i = 0) : i = 31 := by
  by_contra hne
  have hlt : i < 31 := by
    have h1 : i.val < 32 := i.isLt
    have h2 : i.val ≠ 31 := fun hv => hne (Fin.ext hv)
    exact Fin.lt_def.2 (by omega)
  have := stopPercent_anti hlt
  rw [stopPercent_31, h] at this
  exact lt_irrefl 0 this

theorem stopPercent_eq_100 {i : Fin 32} (h : stopPercent i = 100) : i = 0 := by
  by_contra hne
  have hlt : (0 : Fin 32) < i := by
    have h2 : i.val ≠ 0 := fun hv => hne (Fin.ext hv)
    exact Fin.lt_def.2 (by omega)
  have := stopPercent_anti hlt
  rw [stopPercent_0, h] at this
  exact lt_irrefl _ this

theorem mem_gradientStopsRaw {α : Type} {colorAt : Fin 32 → α} {x : ℚ × α} :
    x ∈ gradientStopsRaw colorAt ↔ ∃ i, x = (stopPercent i, colorAt i) := by
  simp [gradientStopsRaw, List.mem_map, eq_comm]

theorem gradientStopsRaw_length {α : Type} (colorAt : Fin 32 → α) :
    (gradientStopsRaw colorAt).length = 32 := by
  simp [gradientStopsRaw]

theorem sortedStops_length {α : Type} (colorAt : Fin 32 → α) :
    (sortedStops colorAt).length = 32 := by
  rw [sortedStops,
    (List.perm_insertionSort (fun p q => p.1 ≤ q.1) (gradientStopsRaw colorAt)).length_eq]
  exact gradientStopsRaw_length colorAt

theorem sortedStops_sorted {α : Type} (colorAt : Fin 32 → α) :
    (sortedStops colorAt).Sorted (fun p q => p.1 ≤ q.1) := by
  haveI : IsTotal (ℚ × α) (fun p q => p.1 ≤ q.1) := ⟨fun a b => le_total a.1 b.1⟩
  haveI : IsTrans (ℚ × α) (fun p q => p.1 ≤ q.1) := ⟨fun a b c hab hbc => le_trans hab hbc⟩
  exact List.sorted_insertionSort _ _

theorem mem_sortedStops {α : Type} {colorAt : Fin 32 → α} {x : ℚ × α} :
    x ∈ sortedStops colorAt ↔ ∃ i, x = (stopPercent i, colorAt i) := by
  rw [sortedStops, List.mem_insertionSort, mem_gradientStopsRaw]

/-- In a sorted list, every element is the last one or is related to it. -/
theorem sorted_rel_getLast {β : Type} {r : β → β → Prop} :
    ∀ {l : List β}, l.Sorted r → ∀ (hne : l ≠ []) {x}, x ∈ l →
      x = l.getLast hne ∨ r x (l.getLast hne) := by
  intro l
  induction l with
  | nil => intro _ hne; exact absurd rfl hne
  | cons a tl ih =>
    intro hl hne x hx
    cases tl with
    | nil =>
      left
      simpa [List.getLast] using (List.mem_singleton).1 hx
    | cons b tl2 =>
      rw [List.getLast_cons (by simp)]
      rcases List.mem_cons.1 hx with rfl | hx2
      · right
        exact List.rel_of_sorted_cons hl _ (List.getLast_mem _)
      · exact ih hl.of_cons (by simp) hx2

theorem sortedStops_head {α : Type} (colorAt : Fin 32 → α) :
    (sortedStops colorAt).headD (defaultStop colorAt) = (0, colorAt 31) := by
  obtain ⟨a, tl, hL⟩ : ∃ a tl, sortedStops colorAt = a :: tl := by
    cases hcase : sortedStops colorAt with
    | nil =>
      exfalso
      have := sortedStops_length colorAt
      rw [hcase] at this
      simp at this
    | cons a tl => exact ⟨a, tl, rfl⟩
  rw [hL, List.headD_cons]
  have hamem : a ∈ sortedStops colorAt := by
    rw [hL]; exact List.mem_cons_self a tl
  obtain ⟨i, hai⟩ := mem_sortedStops.1 hamem
  have he0 : ((stopPercent 31, colorAt 31) : ℚ × α) ∈ sortedStops colorAt :=
    mem_sortedStops.2 ⟨31, rfl⟩
  have hsorted := sortedStops_sorted colorAt
  rw [hL] at hsorted
  have hle : a.1 ≤ stopPercent 31 := by
    rw [hL] at he0
    rcases List.mem_cons.1 he0 with h | h
    · rw [← h]
    · exact List.rel_of_sorted_cons hsorted _ h
  rw [stopPercent_31] at hle
  have hge : 0 ≤ a.1 := by rw [hai]; exact stopPercent_nonneg i
  have hpi : stopPercent i = 0 := by
    have : a.1 = 0 := le_antisymm hle hge
    rw [hai] at this
    exact this
  rw [hai, stopPercent_eq_zero hpi, stopPercent_31]

theorem sortedStops_getLast {α : Type} (colorAt : Fin 32 → α) :
    (sortedStops colorAt).getLastD (defaultStop colorAt) = (100, colorAt 0) := by
  have hne : sortedStops colorAt ≠ [] := by
    intro hcase
    have := sortedStops_length colorAt
    rw [hcase] at this
    simp at this
  rw [List.getLastD_eq_getLast? , List.getLast?_eq_getLast _ hne, Option.getD_some]
  obtain ⟨i, hai⟩ := mem_sortedStops.1 (List.getLast_mem hne)
  have he100 : ((stopPercent 0, colorAt 0) : ℚ × α) ∈ sortedStops colorAt :=
    mem_sortedStops.2 ⟨0, rfl⟩
  have hge : stopPercent 0 ≤ ((sortedStops colorAt).getLast hne).1 := by
    rcases sorted_rel_getLast (sortedStops_sorted colorAt) hne he100 with h | h
    · exact le_of_eq (congrArg Prod.fst h)
    · exact h
  rw [stopPercent_0] at hge
  have hle : ((sortedStops colorAt).getLast hne).1 ≤ 100 := by
    rw [hai]; exact stopPercent_le_100 i
  have hpi : stopPercent i = 100 := by
    have h100 : ((sortedStops colorAt).getLast hne).1 = 100 := le_antisymm hle hge
    rw [hai] at h100
    exact h100
  rw [hai, stopPercent_eq_100 hpi, stopPercent_0]

theorem renderZenithColor_def {α : Type} (colorAt : Fin 32 → α) :
    renderZenithColor colorAt = stopColor ((sortedStops colorAt).headD (defaultStop colorAt)) :=
  rfl

theorem renderHorizonColor_def {α : Type} (colorAt : Fin 32 → α) :
    renderHorizonColor colorAt =
      stopColor ((sortedStops colorAt).getLastD (defaultStop colorAt)) :=
  rfl

theorem renderZenithColor_eq {α : Type} (colorAt : Fin 32 → α) :
    renderZenithColor colorAt = colorAt 31 :=
  (renderZenithColor_def colorAt).trans
    (Eq.trans (congrArg stopColor (sortedStops_head colorAt))
      (rfl : stopColor ((0 : ℚ), colorAt 31) = colorAt 31))

theorem renderHorizonColor_eq {α : Type} (colorAt : Fin 32 → α) :
    renderHorizonColor colorAt = colorAt 0 :=
  (renderHorizonColor_def colorAt).trans
    (Eq.trans (congrArg stopColor (sortedStops_getLast colorAt))
      (rfl : stopColor ((100 : ℚ), colorAt 0) = colorAt 0))

theorem renderGradientStops_eq {α : Type} (colorAt : Fin 32 → α) :
    renderGradientStops colorAt =
      (sortedStops colorAt, renderZenithColor colorAt, renderHorizonColor colorAt) := rfl

theorem sortedStops_percent_bounds {α : Type} (colorAt : Fin 32 → α) :
    ∀ p ∈ sortedStops colorAt, 0 ≤ p.1 ∧ p.1 ≤ 100 := by
  intro p hp
  obtain ⟨i, rfl⟩ := mem_sortedStops.1 hp
  exact ⟨stopPercent_nonneg i, stopPercent_le_100 i⟩

theorem viewDirRaw_horizontal : (viewDirRaw (13 / 10) (sFrac 0)).2.1 = 0 := by
  rw [viewDirRaw, sFrac_0]

theorem upCompSq_strictMono {fz : ℚ} (hfz : 0 < fz) {s s' : ℚ} (h0 : 0 ≤ s) (h : s < s') :
    upCompSq fz s < upCompSq fz s' := by
  have hd1 : (0 : ℚ) < s ^ 2 + fz ^ 2 := by
    have := pow_pos hfz 2
    nlinarith [sq_nonneg s]
  have hd2 : (0 : ℚ) < s' ^ 2 + fz ^ 2 := by
    have := pow_pos hfz 2
    nlinarith [sq_nonneg s']
  rw [upCompSq, upCompSq, div_lt_div_iff₀ hd1 hd2]
  have hfz2 := pow_pos hfz 2
  have hs' : 0 < s' := lt_of_le_of_lt h0 h
  have hsq : 0 < s' ^ 2 - s ^ 2 := by nlinarith
  nlinarith [mul_pos hfz2 hsq]

end StopLemmas

/-- Claim C7, counterexample to the claimed orientation of `s`: the sample
with `s = 0` has the horizontal raw view direction `(0, 0, focal_z)`
(up-component 0), while the sample with `s = 1` has the largest up-component
(shown here at a positive stand-in focal length; `upCompSq` is monotone in
`s` for every positive focal length, and the code's
`focal_z = 1/tan(37.5°) ≈ 1.303` is positive).  The zenith-most sample is
therefore the one with `s = 1`, whose stop percent is `(1-1)·100 = 0`, and
its color is what the function returns as the zenith color (exhibited with
`colorAt i = i`); the claim instead asserts that `s = 0` at the zenith-most
view direction. -/
theorem renderGradient_orientation_counterexample :
    sFrac 0 = 0 ∧ sFrac 31 = 1 ∧
    (viewDirRaw (13 / 10) (sFrac 0)).2.1 = 0 ∧
    upCompSq (13 / 10) (sFrac 0) < upCompSq (13 / 10) (sFrac 31) ∧
    stopPercent 31 = 0 ∧ stopPercent 0 = 100 ∧
    renderZenithColor (fun i : Fin 32 => i.val) = 31 := by
  refine ⟨sFrac_0, sFrac_31, viewDirRaw_horizontal, ?_, stopPercent_31, stopPercent_0, ?_⟩
  · rw [sFrac_0, sFrac_31]
    exact upCompSq_strictMono (by norm_num) le_rfl (by norm_num)
  · exact renderZenithColor_eq fun i : Fin 32 => i.val

/-- Claim C7 (amended: `s` is `0` at the horizon-most (horizontal) view
direction and `1` at the zenith-most one — the claim had this orientation
inverted; everything else confirmed): `render_gradient` produces 32 stops
with `percent = (1 - s)·100`; after the ascending sort every percent lies in
`[0,100]`, the first stop (percent 0) is the color of the `s = 1` sample and
the last stop (percent 100) the color of the `s = 0` sample, and these are
exactly the zenith and horizon colors the function returns.  The `s = 1`
sample is the zenith-most: its (squared, normalized) up-component strictly
dominates every other sample's for any positive focal length, while the
`s = 0` sample's raw view direction is horizontal. -/
theorem renderGradient_stop_structure {α : Type} :
    ∀ colorAt : Fin 32 → α,
      renderGradientStops colorAt =
        (sortedStops colorAt, renderZenithColor colorAt, renderHorizonColor colorAt) ∧
      (sortedStops colorAt).length = 32 ∧
      (∀ i : Fin 32, stopPercent i = (1 - sFrac i) * 100) ∧
      (∀ p ∈ sortedStops colorAt, 0 ≤ p.1 ∧ p.1 ≤ 100) ∧
      (sortedStops colorAt).Sorted (fun p q => p.1 ≤ q.1) ∧
      (sortedStops colorAt).headD (defaultStop colorAt) = (0, colorAt 31) ∧
      (sortedStops colorAt).getLastD (defaultStop colorAt) = (100, colorAt 0) ∧
      renderZenithColor colorAt = colorAt 31 ∧
      renderHorizonColor colorAt = colorAt 0 ∧
      sFrac 0 = 0 ∧ sFrac 31 = 1 ∧ (viewDirRaw (13 / 10) (sFrac 0)).2.1 = 0 ∧
      (∀ fz : ℚ, 0 < fz → ∀ i j : Fin 32, i < j →
        upCompSq fz (sFrac i) < upCompSq fz (sFrac j)) := by
  intro colorAt
  exact ⟨renderGradientStops_eq colorAt, sortedStops_length colorAt, fun i => rfl,
    sortedStops_percent_bounds colorAt, sortedStops_sorted colorAt,
    sortedStops_head colorAt, sortedStops_getLast colorAt,
    renderZenithColor_eq colorAt, renderHorizonColor_eq colorAt,
    sFrac_0, sFrac_31, viewDirRaw_horizontal,
    fun fz hfz i j hij => upCompSq_strictMono hfz (sFrac_nonneg i) (sFrac_strictMono hij)⟩

/-- Witness for the amended C7 at a concrete input. -/
theorem renderGradient_stop_structure_witness :
    upCompSq (13 / 10) (sFrac 0) < upCompSq (13 / 10) (sFrac 31) :=
  (renderGradient_stop_structure fun i : Fin 32 => i.val).2.2.2.2.2.2.2.2.2.2.2.2
    (13 / 10) (by norm_num) 0 31 (by decide)

/-- Claim C8: for any positive-valued exponential (the exact `exp` is
positive everywhere), every `compute_transmittance` result has all three
channels strictly positive — it is either `(1,1,1)` on a ray–sphere miss or a
triple of exponentials — and therefore the per-channel denominator of the
unguarded camera-to-sample transmittance ratio (the camera-to-space call when
the ray initially points downward, the sample-to-space call otherwise) is
nonzero at every view sample and every marched ray sample. -/
theorem transmittance_ratio_denominator_nonzero {K : Type} [LinearOrderedField K] :
    ∀ expF sqrtF sinF cosF : K → K, (∀ x : K, 0 < expF x) →
      (∀ height angle : K,
        0 < (compute_transmittance expF sqrtF sinF cosF height angle).1 ∧
        0 < (compute_transmittance expF sqrtF sinF cosF height angle).2.1 ∧
        0 < (compute_transmittance expF sqrtF sinF cosF height angle).2.2) ∧
      (∀ (downward : Bool) (camera_height camera_angle sample_height sample_angle : K),
        (if downward then compute_transmittance expF sqrtF sinF cosF camera_height camera_angle
         else compute_transmittance expF sqrtF sinF cosF sample_height sample_angle).1 ≠ 0 ∧
        (if downward then compute_transmittance expF sqrtF sinF cosF camera_height camera_angle
         else compute_transmittance expF sqrtF sinF cosF sample_height sample_angle).2.1 ≠ 0 ∧
        (if downward then compute_transmittance expF sqrtF sinF cosF camera_height camera_angle
         else compute_transmittance expF sqrtF sinF cosF sample_height sample_angle).2.2 ≠ 0) := by
  intro expF sqrtF sinF cosF hexp
  have hpos : ∀ height angle : K,
      0 < (compute_transmittance expF sqrtF sinF cosF height angle).1 ∧
      0 < (compute_transmittance expF sqrtF sinF cosF height angle).2.1 ∧
      0 < (compute_transmittance expF sqrtF sinF cosF height angle).2.2 := by
    intro height angle
    rw [compute_transmittance]
    cases intersect_sphere sqrtF (0, GROUND_RADIUS + height, 0) (sinF angle, cosF angle, 0)
      TOP_RADIUS with
    | none => norm_num
    | some distance => exact ⟨hexp _, hexp _, hexp _⟩
  refine ⟨hpos, ?_⟩
  intro downward hc ac hs as
  cases downward with
  | true => exact ⟨(hpos hc ac).1.ne', (hpos hc ac).2.1.ne', (hpos hc ac).2.2.ne'⟩
  | false => exact ⟨(hpos hs as).1.ne', (hpos hs as).2.1.ne', (hpos hs as).2.2.ne'⟩

/-- Witness for C8 at a concrete input. -/
theorem transmittance_ratio_denominator_nonzero_witness :
    (∀ height angle : ℚ,
      0 < (compute_transmittance (fun _ => 1) (fun x => x) (fun x => x) (fun x => x)
        height angle).1 ∧
      0 < (compute_transmittance (fun _ => 1) (fun x => x) (fun x => x) (fun x => x)
        height angle).2.1 ∧
      0 < (compute_transmittance (fun _ => 1) (fun x => x) (fun x => x) (fun x => x)
        height angle).2.2) ∧
    (∀ (downward : Bool) (camera_height camera_angle sample_height sample_angle : ℚ),
      (if downward then compute_transmittance (fun _ => 1) (fun x => x) (fun x => x)
          (fun x => x) camera_height camera_angle
       else compute_transmittance (fun _ => 1) (fun x => x) (fun x => x) (fun x => x)
          sample_height sample_angle).1 ≠ 0 ∧
      (if downward then compute_transmittance (fun _ => 1) (fun x => x) (fun x => x)
          (fun x => x) camera_height camera_angle
       else compute_transmittance (fun _ => 1) (fun x => x) (fun x => x) (fun x => x)
          sample_height sample_angle).2.1 ≠ 0 ∧
      (if downward then compute_transmittance (fun _ => 1) (fun x => x) (fun x => x)
          (fun x => x) camera_height camera_angle
       else compute_transmittance (fun _ => 1) (fun x => x) (fun x => x) (fun x => x)
          sample_height sample_angle).2.2 ≠ 0) :=
  transmittance_ratio_denominator_nonzero (fun _ => 1) (fun x => x) (fun x => x) (fun x => x)
    (fun _ => one_pos)

/-! ### Interval bounds for the solar ephemeris -/

section SunLemmas

open Real

/-- Quartic Taylor lower bound for the cosine on `|x| ≤ b ≤ 1`. -/
theorem cos_quartic_lb {x b : ℝ} (hb : |x| ≤ b) (hb1 : b ≤ 1) :
    1 - b ^ 2 / 2 - b ^ 4 * (5 / 96) ≤ cos x := by
  have h1 : |x| ≤ 1 := le_trans hb hb1
  have h2 := abs_le.1 (Real.cos_bound h1)
  have hx := abs_nonneg x
  have h3 : x ^ 2 ≤ b ^ 2 := by nlinarith [sq_abs x]
  have h4 : |x| ^ 4 ≤ b ^ 4 := pow_le_pow_left₀ hx hb 4
  nlinarith [h2.1, h2.2]

/-- Numeric upper bound for `cos (π/60)` (i.e. `sin 87°`). -/
theorem cos_pi_div_60_ub : cos (π / 60) < 0.99863 := by
  have hπl := pi_gt_d6
  have hπu := pi_lt_d6
  have h0 : (0 : ℝ) < π / 60 := by linarith
  have hu : π / 60 ≤ 0.05235989 := by norm_num at hπu ⊢; linarith
  have hl : (0.0523598 : ℝ) ≤ π / 60 := by norm_num at hπl ⊢; linarith
  have h1 : |π / 60| ≤ 1 := by rw [abs_of_pos h0]; linarith
  have h2 := abs_le.1 (Real.cos_bound h1)
  have h3 : (π / 60) ^ 2 ≥ (0.0523598 : ℝ) ^ 2 := by nlinarith
  have h4 : |π / 60| ^ 4 ≤ (0.05235989 : ℝ) ^ 4 := by
    rw [abs_of_pos h0]
    exact pow_le_pow_left₀ h0.le hu 4
  nlinarith [h2.1, h2.2]

/-- `arctan` shrinks absolute values. -/
theorem abs_arctan_le_abs (x : ℝ) : |arctan x| ≤ |x| := by
  have key : ∀ y : ℝ, 0 ≤ y → arctan y ≤ y := by
    intro y hy
    rcases eq_or_lt_of_le hy with h | h
    · simp [← h]
    · have h1 : 0 < arctan y := by
        have := arctan_strictMono h
        simpa [arctan_zero] using this
      have h2 := lt_tan h1 (arctan_lt_pi_div_two y)
      rw [tan_arctan] at h2
      exact h2.le
  rcases le_or_lt 0 x with hx | hx
  · have h1 : 0 ≤ arctan x := by
      rcases eq_or_lt_of_le hx with h | h
      · simp [← h]
      · have := arctan_strictMono h
        simp only [arctan_zero] at this
        exact this.le
    rw [abs_of_nonneg h1, abs_of_nonneg hx]
    exact key x hx
  · have h1 : arctan x < 0 := by
      have := arctan_strictMono hx
      simpa [arctan_zero] using this
    rw [abs_of_neg h1, abs_of_neg hx, ← arctan_neg]
    exact key (-x) (by linarith)

/-- `arctan` preserves nonpositivity. -/
theorem arctan_nonpos_of_nonpos {x : ℝ} (hx : x ≤ 0) : arctan x ≤ 0 := by
  rcases eq_or_lt_of_le hx with h | h
  · simp [h]
  · have := arctan_strictMono h
    simp only [arctan_zero] at this
    exact this.le

/-- Degree-wise angle reduction: `deg2rad a` and `deg2rad b` differ by full
turns when the degree values differ by a multiple of 360. -/
theorem deg2rad_reduce {a b : ℝ} (k : ℤ) (h : a = b + k * 360) :
    deg2rad a = deg2rad b + k * (2 * π) := by
  rw [deg2rad, deg2rad, h]
  ring

/-- The altitude component of `sunPosition`, written without the
intermediate bindings. -/
theorem sunPosition_alt (ts lat lon : ℝ) :
    (sunPosition ts lat lon).1 =
      altitudeOf
        (siderealTime (toDays ts) (deg2rad (-lon)) -
          rightAscension (eclipticLongitude (solarMeanAnomaly (toDays ts))) 0)
        (deg2rad lat)
        (declination (eclipticLongitude (solarMeanAnomaly (toDays ts))) 0) * (180 / π) :=
  rfl

/-- `deg2rad` is bounded above through the π upper bound, for nonnegative
degrees. -/
theorem deg2rad_le {x : ℝ} (hx : 0 ≤ x) : deg2rad x ≤ x * (3.141593 / 180) := by
  rw [deg2rad]
  nlinarith [pi_lt_d6]

/-- `deg2rad` is bounded below through the π lower bound, for nonnegative
degrees. -/
theorem le_deg2rad {x : ℝ} (hx : 0 ≤ x) : x * (3.141592 / 180) ≤ deg2rad x := by
  rw [deg2rad]
  nlinarith [pi_gt_d6]

/-- `deg2rad` commutes with negation. -/
theorem deg2rad_neg (x : ℝ) : deg2rad (-x) = -deg2rad x := by
  rw [deg2rad, deg2rad]; ring

/-- `deg2rad` is monotone. -/
theorem deg2rad_mono {x y : ℝ} (h : x ≤ y) : deg2rad x ≤ deg2rad y := by
  rw [deg2rad, deg2rad]
  nlinarith [pi_pos]

/-- Numerator/denominator bound for the right-ascension tangent argument. -/
theorem ra_arg_abs_le {s c l : ℝ} (hs : |s| ≤ 0.0714) (hc : |c| ≤ 1)
    (hl : (0.997449 : ℝ) ≤ |l|) : |s * c / l| ≤ 0.0716 := by
  rw [abs_div, abs_mul]
  have h0 : (0 : ℝ) < |l| := lt_of_lt_of_le (by norm_num) hl
  rw [div_le_iff₀ h0]
  nlinarith [abs_nonneg s, abs_nonneg c]

/-- Bound for the declination sine and its square. -/
theorem dec_sin_sq_le {a b : ℝ} (ha : |a| ≤ 0.40911) (hb : |b| ≤ 0.0714) :
    (a * b) ^ 2 ≤ 0.000854 := by
  have h1 : |a * b| ≤ 0.029211 := by
    rw [abs_mul]
    nlinarith [abs_nonneg a, abs_nonneg b]
  nlinarith [abs_nonneg (a * b), sq_abs (a * b)]

/-- Square-root lower bound for the declination cosine. -/
theorem cos_dec_lb {s : ℝ} (h : s ^ 2 ≤ 0.000854) : (0.99957 : ℝ) ≤ √(1 - s ^ 2) := by
  have h1 : (0 : ℝ) ≤ 1 - s ^ 2 := by nlinarith [sq_nonneg s]
  nlinarith [Real.sq_sqrt h1, Real.sqrt_nonneg (1 - s ^ 2)]

/-- Product bound for the altitude sine. -/
theorem alt_arg_bounds {a b : ℝ} (ha1 : (0.99957 : ℝ) ≤ a) (ha2 : a ≤ 1)
    (hb1 : (0.999227 : ℝ) ≤ b) (hb2 : b ≤ 1) : (0.99879 : ℝ) ≤ a * b ∧ a * b ≤ 1 := by
  constructor <;> nlinarith

/-- The equation-of-center term of `eclipticLongitude` is bounded by the sum
of its coefficients. -/
theorem center_term_abs_le (M : ℝ) :
    |1.9148 * sin M + 0.02 * sin (2 * M) + 0.0003 * sin (3 * M)| ≤ 1.9351 := by
  have h1 := neg_one_le_sin M
  have h2 := sin_le_one M
  have h3 := neg_one_le_sin (2 * M)
  have h4 := sin_le_one (2 * M)
  have h5 := neg_one_le_sin (3 * M)
  have h6 := sin_le_one (3 * M)
  rw [abs_le]
  constructor <;> nlinarith

set_option maxHeartbeats 2000000 in
/-- Interval bounds for the solar altitude at 2025-03-20T12:00:00Z
(POSIX 1742472000, days-since-J2000 = 9210) at latitude 0, longitude 0:
the altitude is strictly between 87 and 90 degrees.  The proof tracks
rational interval enclosures through the ephemeris chain, using only the
coarse bounds `|sin x| ≤ min 1 |x|`, the quartic Taylor bound on `cos`, and
`|arctan t| ≤ |t|`. -/
theorem sun_alt_noon_bounds :
    87 < (sunPosition 1742472000 0 0).1 ∧ (sunPosition 1742472000 0 0).1 ≤ 90 := by
  have hπ0 := pi_pos
  have hπl := pi_gt_d6
  have hπu := pi_lt_d6
  rw [sunPosition_alt]
  have hd : toDays (1742472000 : ℝ) = 9210 := by
    rw [toDays, toJulian]; norm_num
  rw [hd]
  set M0 := solarMeanAnomaly 9210 with hM0def
  set L0 := eclipticLongitude M0 with hL0def
  set ra := rightAscension L0 0 with hradef
  set Cv : ℝ := 1.9148 * sin M0 + 0.02 * sin (2 * M0) + 0.0003 * sin (3 * M0) with hCv
  have hCb : |Cv| ≤ 1.9351 := center_term_abs_le M0
  have hCl : -(1.9351 : ℝ) ≤ Cv := (abs_le.1 hCb).1
  have hCu : Cv ≤ 1.9351 := (abs_le.1 hCb).2
  have hM0 : M0 = deg2rad 9434.9076788 := by
    rw [hM0def, solarMeanAnomaly]; norm_num
  have hLsplit : L0 = deg2rad (Cv - 2.1551212) + (27 : ℤ) * (2 * π) := by
    rw [hL0def, eclipticLongitude, ← hCv, hM0]
    simp only [deg2rad]
    push_cast
    ring
  set Lr := deg2rad (Cv - 2.1551212) with hLrdef
  have hsinL : sin L0 = sin Lr := by rw [hLsplit, sin_add_int_mul_two_pi]
  have hcosL : cos L0 = cos Lr := by rw [hLsplit, cos_add_int_mul_two_pi]
  have hLr_lb : -(0.0714 : ℝ) ≤ Lr := by
    have h1 : deg2rad (-(4.0902212 : ℝ)) ≤ Lr :=
      hLrdef ▸ deg2rad_mono (by linarith)
    rw [deg2rad_neg] at h1
    have h2 := deg2rad_le (show (0 : ℝ) ≤ 4.0902212 by norm_num)
    have h3 : (4.0902212 : ℝ) * (3.141593 / 180) ≤ 0.0714 := by norm_num
    linarith
  have hLr_ub : Lr ≤ -(0.0038 : ℝ) := by
    have h1 : Lr ≤ deg2rad (-(0.2200212 : ℝ)) :=
      hLrdef ▸ deg2rad_mono (by linarith)
    rw [deg2rad_neg] at h1
    have h2 := le_deg2rad (show (0 : ℝ) ≤ 0.2200212 by norm_num)
    have h3 : (0.0038 : ℝ) ≤ 0.2200212 * (3.141592 / 180) := by norm_num
    linarith
  have habsLr : |Lr| ≤ 0.0714 := abs_le.2 ⟨hLr_lb, by linarith⟩
  have hsinLr_neg : sin Lr < 0 := sin_neg_of_neg_of_neg_pi_lt (by linarith) (by linarith)
  have habs_sinLr : |sin Lr| ≤ 0.0714 := le_trans abs_sin_le_abs habsLr
  have hcosLr_lb : (0.997449 : ℝ) ≤ cos Lr := by
    have h1 := cos_quartic_lb habsLr (by norm_num)
    have h2 : (0.997449 : ℝ) ≤ 1 - (0.0714 : ℝ) ^ 2 / 2 - (0.0714 : ℝ) ^ 4 * (5 / 96) := by
      norm_num
    linarith
  have hcosLr_pos : (0 : ℝ) < cos Lr := by linarith
  have hOBLeq : OBLIQUITY = deg2rad 23.4397 := rfl
  have hOBL_lb : (0.4 : ℝ) ≤ OBLIQUITY := by
    rw [hOBLeq]
    have h1 := le_deg2rad (show (0 : ℝ) ≤ 23.4397 by norm_num)
    have h2 : (0.4 : ℝ) ≤ 23.4397 * (3.141592 / 180) := by norm_num
    linarith
  have hOBL_ub : OBLIQUITY ≤ 0.40911 := by
    rw [hOBLeq]
    have h1 := deg2rad_le (show (0 : ℝ) ≤ 23.4397 by norm_num)
    have h2 : (23.4397 : ℝ) * (3.141593 / 180) ≤ 0.40911 := by norm_num
    linarith
  have habsOBL : |OBLIQUITY| ≤ 0.40911 := abs_le.2 ⟨by linarith, hOBL_ub⟩
  have hcosOBL_pos : 0 < cos OBLIQUITY := by
    have h1 := cos_quartic_lb habsOBL (by norm_num)
    have h2 : (0 : ℝ) < 1 - (0.40911 : ℝ) ^ 2 / 2 - (0.40911 : ℝ) ^ 4 * (5 / 96) := by
      norm_num
    linarith
  have habs_sinOBL : |sin OBLIQUITY| ≤ 0.40911 := le_trans abs_sin_le_abs habsOBL
  have hra : ra = arctan (sin L0 * cos OBLIQUITY / cos L0) := by
    rw [hradef, rightAscension, Real.tan_zero, zero_mul, sub_zero, atan2,
      if_pos (show (0 : ℝ) < cos L0 by rw [hcosL]; exact hcosLr_pos)]
  have hcosLr_abs : (0.997449 : ℝ) ≤ |cos Lr| := by
    rw [abs_of_pos hcosLr_pos]; exact hcosLr_lb
  have hra_t_abs : |sin L0 * cos OBLIQUITY / cos L0| ≤ 0.0716 := by
    rw [hsinL, hcosL]
    exact ra_arg_abs_le habs_sinLr (abs_cos_le_one _) hcosLr_abs
  have hra_abs : |ra| ≤ 0.0716 := by
    rw [hra]
    exact le_trans (abs_arctan_le_abs _) hra_t_abs
  have hra_nonpos : ra ≤ 0 := by
    rw [hra]
    apply arctan_nonpos_of_nonpos
    apply div_nonpos_of_nonpos_of_nonneg
    · rw [hsinL]
      exact mul_nonpos_iff.2 (Or.inr ⟨hsinLr_neg.le, hcosOBL_pos.le⟩)
    · rw [hcosL]; linarith
  have hdec : declination L0 0 = arcsin (sin OBLIQUITY * sin L0) := by
    rw [declination, Real.sin_zero, Real.cos_zero]
    norm_num
  have hs_sq : (sin OBLIQUITY * sin L0) ^ 2 ≤ 0.000854 := by
    rw [hsinL]
    exact dec_sin_sq_le habs_sinOBL habs_sinLr
  have hcosdec : cos (declination L0 0) = √(1 - (sin OBLIQUITY * sin L0) ^ 2) := by
    rw [hdec, cos_arcsin]
  have hcosdec_lb : (0.99957 : ℝ) ≤ cos (declination L0 0) := by
    rw [hcosdec]
    exact cos_dec_lb hs_sq
  have hcosdec_ub : cos (declination L0 0) ≤ 1 := cos_le_one _
  have hlw : deg2rad (-(0 : ℝ)) = 0 := by rw [deg2rad]; ring
  have hsid : siderealTime 9210 (deg2rad (-(0 : ℝ))) = deg2rad 3324957.752435 := by
    rw [siderealTime, hlw, sub_zero]; norm_num
  have hθsplit : deg2rad (3324957.752435 : ℝ) = deg2rad (-2.247565) + (9236 : ℤ) * (2 * π) :=
    deg2rad_reduce 9236 (by norm_num)
  have hcosH : cos (siderealTime 9210 (deg2rad (-(0 : ℝ))) - ra) =
      cos (deg2rad (-2.247565) - ra) := by
    rw [hsid, show deg2rad (3324957.752435 : ℝ) - ra =
      (deg2rad (-2.247565) - ra) + (9236 : ℤ) * (2 * π) by rw [hθsplit]; ring,
      cos_add_int_mul_two_pi]
  have hθred_lb : -(0.039228 : ℝ) ≤ deg2rad (-2.247565) := by
    rw [show (-2.247565 : ℝ) = -(2.247565) by norm_num, deg2rad_neg]
    have h1 := deg2rad_le (show (0 : ℝ) ≤ 2.247565 by norm_num)
    have h2 : (2.247565 : ℝ) * (3.141593 / 180) ≤ 0.039228 := by norm_num
    linarith
  have hθred_ub : deg2rad (-2.247565 : ℝ) ≤ -0.039227 := by
    rw [show (-2.247565 : ℝ) = -(2.247565) by norm_num, deg2rad_neg]
    have h1 := le_deg2rad (show (0 : ℝ) ≤ 2.247565 by norm_num)
    have h2 : (0.039227 : ℝ) ≤ 2.247565 * (3.141592 / 180) := by norm_num
    linarith
  have hHred_abs : |deg2rad (-2.247565) - ra| ≤ 0.0393 := by
    have h1 : -ra ≤ 0.0716 := by
      have := (abs_le.1 hra_abs).1; linarith
    rw [abs_le]
    constructor
    · linarith
    · linarith
  have hcosHred_lb : (0.999227 : ℝ) ≤ cos (deg2rad (-2.247565) - ra) := by
    have h1 := cos_quartic_lb hHred_abs (by norm_num)
    have h2 : (0.999227 : ℝ) ≤ 1 - (0.0393 : ℝ) ^ 2 / 2 - (0.0393 : ℝ) ^ 4 * (5 / 96) := by
      norm_num
    linarith
  have hcosHred_ub : cos (deg2rad (-2.247565) - ra) ≤ 1 := cos_le_one _
  have hphi : deg2rad (0 : ℝ) = 0 := by rw [deg2rad]; ring
  have halt : altitudeOf (siderealTime 9210 (deg2rad (-(0 : ℝ))) - ra) (deg2rad 0)
      (declination L0 0) =
      arcsin (cos (declination L0 0) * cos (deg2rad (-2.247565) - ra)) := by
    rw [altitudeOf, hphi, Real.sin_zero, Real.cos_zero, hcosH]
    norm_num
  rw [halt]
  obtain ⟨hu_lb, hu_ub⟩ := alt_arg_bounds hcosdec_lb hcosdec_ub hcosHred_lb hcosHred_ub
  set u := cos (declination L0 0) * cos (deg2rad (-2.247565) - ra) with hu
  have hu_gt : cos (π / 60) < u := lt_of_lt_of_le (by linarith [cos_pi_div_60_ub]) hu_lb
  have h180 : (0 : ℝ) < 180 / π := by positivity
  constructor
  · have harc : π / 2 - π / 60 < arcsin u := by
      refine (lt_arcsin_iff_sin_lt (Set.mem_Icc.2 ⟨by linarith, by linarith⟩)
        (Set.mem_Icc.2 ⟨by linarith, hu_ub⟩)).2 ?_
      rw [sin_pi_div_two_sub]
      exact hu_gt
    have hval : (π / 2 - π / 60) * (180 / π) = 87 := by
      field_simp
      ring
    have h2 := mul_lt_mul_of_pos_right harc h180
    rw [hval] at h2
    exact h2
  · have h1 : arcsin u ≤ π / 2 := arcsin_le_pi_div_two u
    have hval : (π / 2) * (180 / π) = 90 := by
      field_simp
      ring
    have h2 := mul_le_mul_of_nonneg_right h1 h180.le
    rw [hval] at h2
    exact h2

/-- Numerator/denominator bound for the right-ascension tangent argument,
with the constants of the midnight instant. -/
theorem ra_arg_abs_le_mid {s c l : ℝ} (hs : |s| ≤ 0.0628) (hc : |c| ≤ 1)
    (hl : (0.998027 : ℝ) ≤ |l|) : |s * c / l| ≤ 0.063 := by
  rw [abs_div, abs_mul]
  have h0 : (0 : ℝ) < |l| := lt_of_lt_of_le (by norm_num) hl
  rw [div_le_iff₀ h0]
  nlinarith [abs_nonneg s, abs_nonneg c]

set_option maxHeartbeats 2000000 in
/-- The solar altitude at 2025-03-21T00:00:00Z (POSIX 1742515200,
days-since-J2000 = 9210.5) at latitude 0, longitude 0 is negative: the hour
angle lies in `(π/2, 3π/2)`, so the altitude sine is negative.  Same interval
technique as `sun_alt_noon_bounds`. -/
theorem sun_alt_midnight_neg : (sunPosition 1742515200 0 0).1 < 0 := by
  have hπ0 := pi_pos
  have hπl := pi_gt_d6
  have hπu := pi_lt_d6
  rw [sunPosition_alt]
  have hd : toDays (1742515200 : ℝ) = 9210.5 := by
    rw [toDays, toJulian]; norm_num
  rw [hd]
  set M0 := solarMeanAnomaly 9210.5 with hM0def
  set L0 := eclipticLongitude M0 with hL0def
  set ra := rightAscension L0 0 with hradef
  set Cv : ℝ := 1.9148 * sin M0 + 0.02 * sin (2 * M0) + 0.0003 * sin (3 * M0) with hCv
  have hCb : |Cv| ≤ 1.9351 := center_term_abs_le M0
  have hCl : -(1.9351 : ℝ) ≤ Cv := (abs_le.1 hCb).1
  have hCu : Cv ≤ 1.9351 := (abs_le.1 hCb).2
  have hM0 : M0 = deg2rad 9435.40047894 := by
    rw [hM0def, solarMeanAnomaly]; norm_num
  have hLsplit : L0 = deg2rad (Cv - 1.66232106) + (27 : ℤ) * (2 * π) := by
    rw [hL0def, eclipticLongitude, ← hCv, hM0]
    simp only [deg2rad]
    push_cast
    ring
  set Lr := deg2rad (Cv - 1.66232106) with hLrdef
  have hsinL : sin L0 = sin Lr := by rw [hLsplit, sin_add_int_mul_two_pi]
  have hcosL : cos L0 = cos Lr := by rw [hLsplit, cos_add_int_mul_two_pi]
  have hLr_lb : -(0.0628 : ℝ) ≤ Lr := by
    have h1 : deg2rad (-(3.5975 : ℝ)) ≤ Lr :=
      hLrdef ▸ deg2rad_mono (by linarith)
    rw [deg2rad_neg] at h1
    have h2 := deg2rad_le (show (0 : ℝ) ≤ 3.5975 by norm_num)
    have h3 : (3.5975 : ℝ) * (3.141593 / 180) ≤ 0.0628 := by norm_num
    linarith
  have hLr_ub : Lr ≤ (0.0628 : ℝ) := by
    have h1 : Lr ≤ deg2rad (0.2728 : ℝ) :=
      hLrdef ▸ deg2rad_mono (by linarith)
    have h2 := deg2rad_le (show (0 : ℝ) ≤ 0.2728 by norm_num)
    have h3 : (0.2728 : ℝ) * (3.141593 / 180) ≤ 0.0628 := by norm_num
    linarith
  have habsLr : |Lr| ≤ 0.0628 := abs_le.2 ⟨hLr_lb, hLr_ub⟩
  have habs_sinLr : |sin Lr| ≤ 0.0628 := le_trans abs_sin_le_abs habsLr
  have hcosLr_lb : (0.998027 : ℝ) ≤ cos Lr := by
    have h1 := cos_quartic_lb habsLr (by norm_num)
    have h2 : (0.998027 : ℝ) ≤ 1 - (0.0628 : ℝ) ^ 2 / 2 - (0.0628 : ℝ) ^ 4 * (5 / 96) := by
      norm_num
    linarith
  have hcosLr_pos : (0 : ℝ) < cos Lr := by linarith
  have hOBLeq : OBLIQUITY = deg2rad 23.4397 := rfl
  have hOBL_lb : (0.4 : ℝ) ≤ OBLIQUITY := by
    rw [hOBLeq]
    have h1 := le_deg2rad (show (0 : ℝ) ≤ 23.4397 by norm_num)
    have h2 : (0.4 : ℝ) ≤ 23.4397 * (3.141592 / 180) := by norm_num
    linarith
  have hOBL_ub : OBLIQUITY ≤ 0.40911 := by
    rw [hOBLeq]
    have h1 := deg2rad_le (show (0 : ℝ) ≤ 23.4397 by norm_num)
    have h2 : (23.4397 : ℝ) * (3.141593 / 180) ≤ 0.40911 := by norm_num
    linarith
  have habsOBL : |OBLIQUITY| ≤ 0.40911 := abs_le.2 ⟨by linarith, hOBL_ub⟩
  have habs_sinOBL : |sin OBLIQUITY| ≤ 0.40911 := le_trans abs_sin_le_abs habsOBL
  have hra : ra = arctan (sin L0 * cos OBLIQUITY / cos L0) := by
    rw [hradef, rightAscension, Real.tan_zero, zero_mul, sub_zero, atan2,
      if_pos (show (0 : ℝ) < cos L0 by rw [hcosL]; exact hcosLr_pos)]
  have hcosLr_abs : (0.998027 : ℝ) ≤ |cos Lr| := by
    rw [abs_of_pos hcosLr_pos]; exact hcosLr_lb
  have hra_t_abs : |sin L0 * cos OBLIQUITY / cos L0| ≤ 0.063 := by
    rw [hsinL, hcosL]
    exact ra_arg_abs_le_mid habs_sinLr (abs_cos_le_one _) hcosLr_abs
  have hra_abs : |ra| ≤ 0.063 := by
    rw [hra]
    exact le_trans (abs_arctan_le_abs _) hra_t_abs
  have hra_lb : -(0.063 : ℝ) ≤ ra := (abs_le.1 hra_abs).1
  have hra_ub : ra ≤ (0.063 : ℝ) := (abs_le.1 hra_abs).2
  have hs_sq : (sin OBLIQUITY * sin L0) ^ 2 ≤ 0.000854 := by
    rw [hsinL]
    exact dec_sin_sq_le habs_sinOBL (le_trans habs_sinLr (by norm_num))
  have hdec : declination L0 0 = arcsin (sin OBLIQUITY * sin L0) := by
    rw [declination, Real.sin_zero, Real.cos_zero]
    norm_num
  have hcosdec : cos (declination L0 0) = √(1 - (sin OBLIQUITY * sin L0) ^ 2) := by
    rw [hdec, cos_arcsin]
  have hcosdec_lb : (0.99957 : ℝ) ≤ cos (declination L0 0) := by
    rw [hcosdec]
    exact cos_dec_lb hs_sq
  have hcosdec_pos : (0 : ℝ) < cos (declination L0 0) := by linarith
  have hlw : deg2rad (-(0 : ℝ)) = 0 := by rw [deg2rad]; ring
  have hsid : siderealTime 9210.5 (deg2rad (-(0 : ℝ))) = deg2rad 3325138.24524675 := by
    rw [siderealTime, hlw, sub_zero]; norm_num
  have hθsplit : deg2rad (3325138.24524675 : ℝ) =
      deg2rad 178.24524675 + (9236 : ℤ) * (2 * π) :=
    deg2rad_reduce 9236 (by norm_num)
  have hcosH : cos (siderealTime 9210.5 (deg2rad (-(0 : ℝ))) - ra) =
      cos (deg2rad 178.24524675 - ra) := by
    rw [hsid, show deg2rad (3325138.24524675 : ℝ) - ra =
      (deg2rad 178.24524675 - ra) + (9236 : ℤ) * (2 * π) by rw [hθsplit]; ring,
      cos_add_int_mul_two_pi]
  have hθred_lb : (3.110965 : ℝ) ≤ deg2rad 178.24524675 := by
    have h1 := le_deg2rad (show (0 : ℝ) ≤ 178.24524675 by norm_num)
    have h2 : (3.110965 : ℝ) ≤ 178.24524675 * (3.141592 / 180) := by norm_num
    linarith
  have hθred_ub : deg2rad (178.24524675 : ℝ) ≤ 3.110967 := by
    have h1 := deg2rad_le (show (0 : ℝ) ≤ 178.24524675 by norm_num)
    have h2 : (178.24524675 : ℝ) * (3.141593 / 180) ≤ 3.110967 := by norm_num
    linarith
  have hcosHred_neg : cos (deg2rad 178.24524675 - ra) < 0 := by
    apply cos_neg_of_pi_div_two_lt_of_lt
    · linarith
    · linarith
  have hphi : deg2rad (0 : ℝ) = 0 := by rw [deg2rad]; ring
  have halt : altitudeOf (siderealTime 9210.5 (deg2rad (-(0 : ℝ))) - ra) (deg2rad 0)
      (declination L0 0) =
      arcsin (cos (declination L0 0) * cos (deg2rad 178.24524675 - ra)) := by
    rw [altitudeOf, hphi, Real.sin_zero, Real.cos_zero, hcosH]
    norm_num
  rw [halt]
  have hu_neg : cos (declination L0 0) * cos (deg2rad 178.24524675 - ra) < 0 :=
    mul_neg_of_pos_of_neg hcosdec_pos hcosHred_neg
  have harc_pos : 0 < arcsin (-(cos (declination L0 0) *
      cos (deg2rad 178.24524675 - ra))) :=
    arcsin_pos.2 (by linarith)
  have harc_neg : arcsin (cos (declination L0 0) * cos (deg2rad 178.24524675 - ra)) < 0 := by
    have h1 := arcsin_neg (cos (declination L0 0) * cos (deg2rad 178.24524675 - ra))
    linarith [h1 ▸ harc_pos]
  have h180 : (0 : ℝ) < 180 / π := by positivity
  exact mul_neg_of_neg_of_pos harc_neg h180

/-- With all three influence toggles disabled, the effect pipeline returns its
input colors unchanged, regardless of heuristics and weather. -/
theorem applyEffects_all_off {K : Type} [LinearOrderedField K] [FloorRing K]
    (heur : Heuristics K) (w : Option (WeatherSample K)) (h z : Color K) :
    (applyEffects false false false heur w h z).1 = (h, z) := by
  cases w <;> simp [applyEffects]

/-- With all three influence toggles disabled, `executeColors` is the base
scattering-color pair at the instant's solar altitude: the calendar date and
the heuristics drop out, but the solar altitude (hence the instant) does not. -/
theorem executeColors_all_off (base : ℝ → Color ℝ × Color ℝ) (latr lonr : ℚ)
    (date : DateYMD) (ts : ℚ) (w : Option (WeatherSample ℝ)) :
    executeColors base false false false latr lonr date ts w =
      base (sunPosition (ts : ℝ) (latr : ℝ) (lonr : ℝ)).1 := by
  simp only [executeColors]
  rw [applyEffects_all_off]

end SunLemmas

section ClaimSun

open Real

/-- C9: `sun_position` evaluated at 2025-03-20T12:00:00Z (POSIX timestamp
1742472000) with latitude 0 and longitude 0 returns an `altitude_deg` within
3 degrees of 90. -/
theorem sunPosition_equinox_noon_altitude :
    |(sunPosition 1742472000 0 0).1 - 90| < 3 := by
  obtain ⟨h1, h2⟩ := sun_alt_noon_bounds
  rw [abs_lt]
  constructor <;> linarith

/-- C4 counterexample: with all three influence toggles disabled and fixed
rounded coordinates (0, 0), running the sky computation at
2025-03-20T12:00:00Z and at 2025-03-21T00:00:00Z does not always yield
identical color pairs: the base scattering colors are evaluated at the solar
altitude, which is above 87° at the first instant and negative at the second,
so any altitude-sensitive base renderer gives different outputs. -/
theorem executeColors_date_independence_counterexample :
    ¬ (∀ (base : ℝ → Color ℝ × Color ℝ) (latr lonr : ℚ) (d1 d2 : DateYMD)
        (ts1 ts2 : ℚ),
        executeColors base false false false latr lonr d1 ts1 none =
          executeColors base false false false latr lonr d2 ts2 none) := by
  intro hall
  have h := hall (fun a => ((⟨a, a, a⟩ : Color ℝ), (⟨a, a, a⟩ : Color ℝ))) 0 0
    ⟨2025, 3, 20⟩ ⟨2025, 3, 21⟩ 1742472000 1742515200
  rw [executeColors_all_off, executeColors_all_off] at h
  have h2 := congrArg (fun p : Color ℝ × Color ℝ => p.1.r) h
  simp only at h2
  have hc1 : ((1742472000 : ℚ) : ℝ) = 1742472000 := by norm_num
  have hc2 : ((1742515200 : ℚ) : ℝ) = 1742515200 := by norm_num
  have hc0 : ((0 : ℚ) : ℝ) = 0 := by norm_num
  rw [hc1, hc2, hc0] at h2
  have hn := sun_alt_noon_bounds
  have hm := sun_alt_midnight_neg
  linarith [hn.1]

/-- C4 amended: with all three influence toggles disabled the final colors
equal the base scattering colors at the instant's solar altitude; the
calendar-date-seeded heuristics drop out entirely, so two runs at instants
with equal solar altitude (for the same rounded coordinates) yield identical
color pairs — but the altitude itself still varies with the date. -/
theorem executeColors_all_off_altitude_determined
    (base : ℝ → Color ℝ × Color ℝ) (latr lonr : ℚ) (d1 d2 : DateYMD) (ts1 ts2 : ℚ)
    (w1 w2 : Option (WeatherSample ℝ))
    (h : (sunPosition (ts1 : ℝ) (latr : ℝ) (lonr : ℝ)).1 =
      (sunPosition (ts2 : ℝ) (latr : ℝ) (lonr : ℝ)).1) :
    executeColors base false false false latr lonr d1 ts1 w1 =
      executeColors base false false false latr lonr d2 ts2 w2 := by
  rw [executeColors_all_off, executeColors_all_off, h]

/-- Witness for the C4 amended theorem at a concrete input: equal timestamps
have equal solar altitudes, and the two runs at different calendar dates
coincide. -/
theorem executeColors_all_off_altitude_determined_witness :
    (sunPosition ((0 : ℚ) : ℝ) ((0 : ℚ) : ℝ) ((0 : ℚ) : ℝ)).1 =
      (sunPosition ((0 : ℚ) : ℝ) ((0 : ℚ) : ℝ) ((0 : ℚ) : ℝ)).1 ∧
    executeColors (fun a => ((⟨a, a, a⟩ : Color ℝ), (⟨a, a, a⟩ : Color ℝ)))
        false false false 0 0 ⟨2025, 1, 1⟩ 0 none =
      executeColors (fun a => ((⟨a, a, a⟩ : Color ℝ), (⟨a, a, a⟩ : Color ℝ)))
        false false false 0 0 ⟨2024, 6, 7⟩ 0 none :=
  ⟨rfl, executeColors_all_off_altitude_determined _ 0 0 _ _ 0 0 none none rfl⟩

end ClaimSun

end Horizon
